import Mathlib

/-!
# helm-api: release lifecycle manager

Shallow embedding of `helmutils/helmutils.go`, `helmutils/interface.go`,
`defaults/defaults.go`, `apiutils/apiutils.go`, `utils/utils.go` and
`updateEnvHandler` of `main.go`.

Stateful code is written in explicit state-passing style.  The state is a
`World`: the cluster the Helm actions talk to, and the disk the chart loader,
the file-system port, `os.Stat`, `chartutil.CreateFrom` and the values-file
calls talk to.  Every method returns an `Outcome`: the Go return value, the
world afterwards, and the calls it made on its collaborators, in order.
-/

namespace defaults

/-- Go: `EnvPrefix = "test-"` in `defaults/defaults.go`. -/
def EnvPrefix : String := "test-"

/-- Go: `NameSpace = "helm-api-pg"`. -/
def NameSpace : String := "helm-api-pg"

/-- Go: `OutPutDir = "charts"`. -/
def OutPutDir : String := "charts"

/-- Go: `SourceDir = "source/helm/mariadb"`. -/
def SourceDir : String := "source/helm/mariadb"

end defaults

namespace filepath

/-- Split a path at every `/`; the pieces are the path elements (possibly empty). -/
def splitElems : List Char → List (List Char)
  | [] => [[]]
  | c :: cs =>
    if c = '/' then [] :: splitElems cs
    else
      match splitElems cs with
      | [] => [[c]]
      | e :: es => (c :: e) :: es

/-- One element of the path processed by Go's `filepath.Clean`.  The stack holds the
elements written so far, the last one first.  Empty and `.` elements are dropped; `..`
removes the last real element, is kept at the front of a relative path, and is dropped at
the root. -/
def cleanStep (rooted : Bool) (stack : List (List Char)) (e : List Char) : List (List Char) :=
  if e = [] ∨ e = ['.'] then stack
  else if e = ['.', '.'] then
    match stack with
    | [] => if rooted then [] else [e]
    | top :: below => if top = ['.', '.'] then e :: top :: below else below
  else e :: stack

/-- Join path elements with `/`. -/
def joinElems : List (List Char) → List Char
  | [] => []
  | [e] => e
  | e :: es => e ++ '/' :: joinElems es

/-- Go: `filepath.Clean` on Unix (no volume name), by path element. -/
def Clean (path : String) : String :=
  if path = "" then "."
  else
    let rooted := path.toList.head? = some '/'
    let stack := (splitElems path.toList).foldl (cleanStep rooted) []
    let body := joinElems stack.reverse
    if rooted then String.mk ('/' :: body)
    else if body = [] then "."
    else String.mk body

/-- Go: `filepath.Join(a, b)`: the first non-empty argument onwards, joined with `/` and
cleaned; the empty string when both are empty. -/
def Join (a b : String) : String :=
  if a ≠ "" then Clean (a ++ "/" ++ b)
  else if b ≠ "" then Clean b
  else ""

end filepath

namespace helmutils

/-- Go: `chart.Metadata`, the fields this program reads or writes. -/
structure Metadata where
  Name : String
  Version : String
  Description : String
deriving DecidableEq, Repr

/-- Go: `*chart.Chart` as returned by a chart loader. -/
structure Chart where
  Metadata : Metadata
deriving DecidableEq, Repr

/-- Go: `*release.Release` (non-nil). -/
structure Release where
  Name : String
  Namespace : String
  Manifest : String
deriving DecidableEq, Repr

/-- Go: `*release.UninstallReleaseResponse` (non-nil, with a non-nil `Release`). -/
structure UninstallReleaseResponse where
  Release : Release
  Info : String
deriving DecidableEq, Repr

/-- Go: `Value`, the configuration held in `RealClient.Default`. -/
structure Value where
  Namespace : String
  OutputDir : String
  SourceDir : String
deriving DecidableEq, Repr

/-- Fields `ListReleases` sets on the list action (it also calls `SetStateMask`). -/
structure ListOptions where
  AllNamespaces : Bool
  Filter : String
deriving DecidableEq, Repr

/-- Fields `InstallRelease` sets on the install action; `Timeout` is in seconds. -/
structure InstallOptions where
  ReleaseName : String
  Namespace : String
  Wait : Bool
  Timeout : Nat
  DryRun : Bool
deriving DecidableEq, Repr

/-- Fields `UpgradeRelease` sets on the upgrade action; `Timeout` is in seconds. -/
structure UpgradeOptions where
  Namespace : String
  Wait : Bool
  Timeout : Nat
  DryRun : Bool
  Install : Bool
  Force : Bool
deriving DecidableEq, Repr

/-- Fields `UninstallRelease` sets on the uninstall action; `Timeout` is in seconds. -/
structure UninstallOptions where
  DryRun : Bool
  Timeout : Nat
  Wait : Bool
  IgnoreNotFound : Bool
deriving DecidableEq, Repr

/-- Result of `os.Stat` as the code inspects it: `err == nil`, `os.IsNotExist(err)`, or
another error. -/
inductive StatResult
  | ok
  | notExist
  | otherError
deriving DecidableEq, Repr

/-- How a method can fail: a Go `error` returned to the caller, or a run-time panic
(a method called on a nil interface value). -/
inductive Fault
  | error (msg : String)
  | panic (msg : String)
deriving DecidableEq, Repr

/-- Calls a method makes on its collaborators.  The `Run` of a Helm action is logged with
the fields the method set on the action beforehand: `some` fields when the action is the
Helm type, `none` when it is another implementation of the interface, on which the method
sets nothing. -/
inductive Call
  | NewList
  | ListRun (fields : Option ListOptions)
  | NewInstall
  | Load (path : String)
  | InstallRun (fields : Option InstallOptions) (chart : Chart)
  | NewUpgrade
  | UpgradeRun (fields : Option UpgradeOptions) (name : String) (chart : Chart)
  | NewUninstall
  | UninstallRun (fields : Option UninstallOptions) (name : String)
  | DeleteSubfolder (path : String)
  | Stat (path : String)
  | CreateFrom (m : Metadata) (dest src : String)
  | ReadValuesFile (path : String)
  | WriteFile (path data : String)
deriving DecidableEq, Repr

/-- Action value a constructor of the actioner hands out (Go: a value of the interface type
`ListAction`, `InstallAction`, `UpgradeAction` or `UninstallAction`).  It is either the
Helm type (`*action.List` and so on), whose `Run` reads the fields, of type `ο`, that were
set on it, or another implementation of the interface, such as a test double, which has no
such fields.  `ρ` is the type of `Run`. -/
inductive Action (ο ρ : Type)
  | helm (run : ο → ρ)
  | other (run : ρ)

/-- Go: what the block `if x, ok := client.(*action.T); ok { ... }` leaves on the action:
the type assertion holds for the Helm type only, so the fields `o` are set on it and
nothing is set on any other implementation. -/
def Action.fields (act : Action ο ρ) (o : ο) : Option ο :=
  match act with
  | .helm _ => some o
  | .other _ => none

/-- Go: `client.Run` after that block: the Helm type runs with the fields `o`, any other
implementation runs as it was handed out. -/
def Action.Run (act : Action ο ρ) (o : ο) : ρ :=
  match act with
  | .helm run => run o
  | .other run => run

/-- Go: `HelmActioner`: the action each constructor hands out.  A `Run` that succeeds
returns a non-nil result.  The `values` argument of install and upgrade is always the nil
map and is left out, as is the configuration the constructors take. -/
structure HelmActioner (κ : Type) where
  NewList : Action ListOptions (κ → Except String (List Release))
  NewInstall : Action InstallOptions (Chart → κ → Except String Release × κ)
  NewUpgrade : Action UpgradeOptions (String → Chart → κ → Except String Release × κ)
  NewUninstall :
    Action UninstallOptions (String → κ → Except String UninstallReleaseResponse × κ)

/-- Go: `Run` of the list action, after the type assertion block offered it the fields
`o`. -/
def HelmActioner.listRun (a : HelmActioner κ) (o : ListOptions) :
    κ → Except String (List Release) :=
  a.NewList.Run o

/-- Go: `Run` of the install action, after the type assertion block offered it the fields
`o`. -/
def HelmActioner.installRun (a : HelmActioner κ) (o : InstallOptions) :
    Chart → κ → Except String Release × κ :=
  a.NewInstall.Run o

/-- Go: `Run` of the upgrade action, after the type assertion block offered it the fields
`o`. -/
def HelmActioner.upgradeRun (a : HelmActioner κ) (o : UpgradeOptions) :
    String → Chart → κ → Except String Release × κ :=
  a.NewUpgrade.Run o

/-- Go: `Run` of the uninstall action, after the type assertion block offered it the
fields `o`. -/
def HelmActioner.uninstallRun (a : HelmActioner κ) (o : UninstallOptions) :
    String → κ → Except String UninstallReleaseResponse × κ :=
  a.NewUninstall.Run o

/-- Go: `ChartLoader`. -/
structure ChartLoader (δ : Type) where
  Load : String → δ → Except String Chart

/-- Go: `FileSystem`.  Only `DeleteSubfolder` is ever called through the port; its result
is the Go `error` (`none` for nil). -/
structure FileSystem (δ : Type) where
  DeleteSubfolder : String → δ → Option String × δ

/-- Package-level calls the client makes directly: `os.Stat` and `chartutil.CreateFrom`
(whose result is the Go `error`, `none` for nil). -/
structure Host (δ : Type) where
  Stat : String → δ → StatResult
  CreateFrom : Metadata → String → String → δ → Option String × δ

/-- Go: `RealClient`.  The three ports are interface values and may be nil (`none`).
`ActionConfig` is only handed to the action constructors and `Logger` (taken to be set)
only logs; both are left out. -/
structure RealClient (κ δ : Type) where
  Default : Value
  Actioner : Option (HelmActioner κ)
  ChartLoader : Option (ChartLoader δ)
  Filesystem : Option (FileSystem δ)

/-- State the client acts on: the cluster behind the Helm actions and the disk. -/
structure World (κ δ : Type) where
  cluster : κ
  disk : δ

/-- What a method call produces: its return value, the world afterwards and the calls it
made on its collaborators, in order.  A Go pair `(*T, error)` whose first component is nil
exactly when the error is not is an `Except Fault T`. -/
structure Outcome (κ δ ρ : Type) where
  result : ρ
  world : World κ δ
  calls : List Call

/-- Message of the panic raised by a method call on a nil interface value. -/
def nilDereference : String :=
  "runtime error: invalid memory address or nil pointer dereference"

/-- Fields `ListReleases` sets on a list action of the Helm type: `AllNamespaces = false`,
`Filter = defaults.EnvPrefix`. -/
def listOptions : ListOptions :=
  { AllNamespaces := false, Filter := defaults.EnvPrefix }

/-- Fields `InstallRelease` sets on an install action of the Helm type: the qualified
release name, the configured namespace, `Wait = true`, `Timeout = 300 * time.Second`,
`DryRun = false`. -/
def installOptions (hc : RealClient κ δ) (releaseName : String) : InstallOptions :=
  { ReleaseName := releaseName, Namespace := hc.Default.Namespace, Wait := true,
    Timeout := 300, DryRun := false }

/-- Fields `UpgradeRelease` sets on an upgrade action of the Helm type. -/
def upgradeOptions (hc : RealClient κ δ) : UpgradeOptions :=
  { Namespace := hc.Default.Namespace, Wait := true, Timeout := 300, DryRun := false,
    Install := true, Force := true }

/-- Fields `UninstallRelease` sets on an uninstall action of the Helm type. -/
def uninstallOptions : UninstallOptions :=
  { DryRun := false, Timeout := 300, Wait := true, IgnoreNotFound := false }

/-- Fields the list action of the client runs with in `ListReleases`: `listOptions` when
the actioner hands out the Helm type, none otherwise. -/
def listFields (hc : RealClient κ δ) : Option ListOptions :=
  match hc.Actioner with
  | some a => a.NewList.fields listOptions
  | none => none

/-- Go: `RealClient.ListReleases`. -/
def ListReleases (hc : RealClient κ δ) (w : World κ δ) :
    Outcome κ δ (Except Fault (List String)) :=
  match hc.Actioner with
  | none => ⟨.error (.panic nilDereference), w, []⟩
  | some a =>
    let fields := a.NewList.fields listOptions
    match a.listRun listOptions w.cluster with
    | .error e =>
      ⟨.error (.error ("failed to run list: " ++ e)), w, [.NewList, .ListRun fields]⟩
    | .ok rel =>
      ⟨.ok (rel.map fun v => v.Name), w, [.NewList, .ListRun fields]⟩

/-- Go: `RealClient.InstallRelease`. -/
def InstallRelease (hc : RealClient κ δ) (chartPath releaseName : String) (w : World κ δ) :
    Outcome κ δ (Except Fault Release) :=
  let l := ListReleases hc w
  match l.result with
  | .error f => ⟨.error f, l.world, l.calls⟩
  | .ok chartList =>
    if chartList.contains releaseName then
      ⟨.error (.error ("release for " ++ releaseName ++
          " already exist please use update-env endpoint")), l.world, l.calls⟩
    else
      let releaseName := defaults.EnvPrefix ++ releaseName
      match hc.Actioner with
      | none => ⟨.error (.panic nilDereference), l.world, l.calls⟩
      | some a =>
        let o := installOptions hc releaseName
        let fields := a.NewInstall.fields o
        match hc.ChartLoader with
        | none => ⟨.error (.panic nilDereference), l.world, l.calls ++ [.NewInstall]⟩
        | some cl =>
          match cl.Load chartPath l.world.disk with
          | .error e =>
            ⟨.error (.error ("failed to load chart: " ++ e)), l.world,
              l.calls ++ [.NewInstall, .Load chartPath]⟩
          | .ok chart =>
            match a.installRun o chart l.world.cluster with
            | (.error e, k) =>
              ⟨.error (.error e), ⟨k, l.world.disk⟩,
                l.calls ++ [.NewInstall, .Load chartPath, .InstallRun fields chart]⟩
            | (.ok rel, k) =>
              ⟨.ok rel, ⟨k, l.world.disk⟩,
                l.calls ++ [.NewInstall, .Load chartPath, .InstallRun fields chart]⟩

/-- Go: `RealClient.UpgradeRelease`. -/
def UpgradeRelease (hc : RealClient κ δ) (releaseName : String) (w : World κ δ) :
    Outcome κ δ (Except Fault Release) :=
  let l := ListReleases hc w
  match l.result with
  | .error f => ⟨.error f, l.world, l.calls⟩
  | .ok chartList =>
    if !chartList.contains releaseName then
      ⟨.error (.error ("release name doesn't match any of helm-api related environments, " ++
          "please use correct release name: " ++ releaseName)), l.world, l.calls⟩
    else
      let chartPath := filepath.Join hc.Default.OutputDir releaseName
      match hc.Actioner with
      | none => ⟨.error (.panic nilDereference), l.world, l.calls⟩
      | some a =>
        let o := upgradeOptions hc
        let fields := a.NewUpgrade.fields o
        match hc.ChartLoader with
        | none => ⟨.error (.panic nilDereference), l.world, l.calls ++ [.NewUpgrade]⟩
        | some cl =>
          match cl.Load chartPath l.world.disk with
          | .error e =>
            ⟨.error (.error ("failed to load chart: " ++ e)), l.world,
              l.calls ++ [.NewUpgrade, .Load chartPath]⟩
          | .ok chart =>
            match a.upgradeRun o releaseName chart l.world.cluster with
            | (.error e, k) =>
              ⟨.error (.error e), ⟨k, l.world.disk⟩,
                l.calls ++
                  [.NewUpgrade, .Load chartPath, .UpgradeRun fields releaseName chart]⟩
            | (.ok rel, k) =>
              ⟨.ok rel, ⟨k, l.world.disk⟩,
                l.calls ++
                  [.NewUpgrade, .Load chartPath, .UpgradeRun fields releaseName chart]⟩

/-- Go: `RealClient.UninstallRelease`. -/
def UninstallRelease (hc : RealClient κ δ) (releaseName : String) (w : World κ δ) :
    Outcome κ δ (Except Fault UninstallReleaseResponse) :=
  let l := ListReleases hc w
  match l.result with
  | .error f => ⟨.error f, l.world, l.calls⟩
  | .ok chartList =>
    if !chartList.contains releaseName then
      ⟨.error (.error ("release name doesn't match any of helm-api related environments, " ++
          "please use correct release name: " ++ releaseName)), l.world, l.calls⟩
    else
      match hc.Actioner with
      | none => ⟨.error (.panic nilDereference), l.world, l.calls⟩
      | some a =>
        let o := uninstallOptions
        let fields := a.NewUninstall.fields o
        match a.uninstallRun o releaseName l.world.cluster with
        | (.error e, k) =>
          ⟨.error (.error e), ⟨k, l.world.disk⟩,
            l.calls ++ [.NewUninstall, .UninstallRun fields releaseName]⟩
        | (.ok rel, k) =>
          let chartPath := filepath.Join hc.Default.OutputDir releaseName
          match hc.Filesystem with
          | none =>
            ⟨.error (.panic nilDereference), ⟨k, l.world.disk⟩,
              l.calls ++ [.NewUninstall, .UninstallRun fields releaseName]⟩
          | some fs =>
            match fs.DeleteSubfolder chartPath l.world.disk with
            | (some e, d) =>
              ⟨.error (.error ("failed to delete chart files: " ++ e)), ⟨k, d⟩,
                l.calls ++ [.NewUninstall, .UninstallRun fields releaseName,
                  .DeleteSubfolder chartPath]⟩
            | (none, d) =>
              ⟨.ok rel, ⟨k, d⟩,
                l.calls ++ [.NewUninstall, .UninstallRun fields releaseName,
                  .DeleteSubfolder chartPath]⟩

/-- Go: `RealClient.CreateHelmChartFromSource`.  The result is the Go pair
`(chartPath, err)`, with `none` for a nil error. -/
def CreateHelmChartFromSource (os : Host δ) (hc : RealClient κ δ) (options : Metadata)
    (w : World κ δ) : Outcome κ δ (String × Option String) :=
  match os.Stat hc.Default.SourceDir w.disk with
  | .notExist =>
    ⟨("", some ("source chart path does not exist: " ++ hc.Default.SourceDir)), w,
      [.Stat hc.Default.SourceDir]⟩
  | _ =>
    match os.Stat hc.Default.OutputDir w.disk with
    | .notExist =>
      ⟨("", some ("output directory does not exist: " ++ hc.Default.OutputDir)), w,
        [.Stat hc.Default.SourceDir, .Stat hc.Default.OutputDir]⟩
    | _ =>
      let options := { options with Name := defaults.EnvPrefix ++ options.Name }
      let chartPath := hc.Default.OutputDir ++ "/" ++ options.Name
      let stats : List Call :=
        [.Stat hc.Default.SourceDir, .Stat hc.Default.OutputDir, .Stat chartPath]
      match os.Stat chartPath w.disk with
      | .ok => ⟨(chartPath, none), w, stats⟩
      | _ =>
        match os.CreateFrom options hc.Default.OutputDir hc.Default.SourceDir w.disk with
        | (some e, d) =>
          ⟨("", some ("failed to create chart from source: " ++ e)), ⟨w.cluster, d⟩,
            stats ++ [.CreateFrom options hc.Default.OutputDir hc.Default.SourceDir]⟩
        | (none, d) =>
          ⟨(chartPath, none), ⟨w.cluster, d⟩,
            stats ++ [.CreateFrom options hc.Default.OutputDir hc.Default.SourceDir]⟩

end helmutils

namespace chartutil

/-- Value held in a values document, or in the Go mapping decoded from it (Go:
`interface{}`).  A number is an `int`: an integer scalar of a document, or a Go `int`,
exact; or a `float`: a `float64`, the value of a scalar in exponent notation or a Go
`float64`, whose value is the integer `i`.  Numbers with a fractional part are not
modelled. -/
inductive Node
  | null
  | bool (b : Bool)
  | int (i : Int)
  | float (i : Int)
  | str (s : String)
  | list (items : List Node)
  | map (entries : List (String × Node))

/-- Go: `chartutil.Values`, a `map[string]interface{}`, as its key and value pairs. -/
abbrev Values := List (String × Node)

/-- Go: `m[k]` with its presence flag. -/
def Values.get (m : Values) (k : String) : Option Node :=
  List.lookup k m

/-- Go: `m[k] = v`: the key is bound to `v`, every other binding stays. -/
def Values.set (m : Values) (k : String) (v : Node) : Values :=
  (k, v) :: m.filter fun e => e.1 != k

/-- Number of binary digits of `n`, counting at most `fuel` of them. -/
def bitLength : Nat → Nat → Nat
  | 0, _ => 0
  | fuel + 1, n => if n = 0 then 0 else bitLength fuel (n / 2) + 1

/-- Go: conversion of an integer to `float64`: the nearest value with a mantissa of 53
binary digits, a tie going to the even mantissa.  Integers beyond the range of `float64`
(1024 binary digits) are not modelled. -/
def roundFloat64 (i : Int) : Int :=
  let n := i.natAbs
  let bits := bitLength 1024 n
  if bits ≤ 53 then i
  else
    let unit := 2 ^ (bits - 53)
    let q := n / unit
    let r := n % unit
    let q₁ := if 2 * r > unit ∨ (2 * r = unit ∧ q % 2 = 1) then q + 1 else q
    if i < 0 then -((q₁ * unit : Nat) : Int) else ((q₁ * unit : Nat) : Int)

mutual

/-- Library behaviour (`helm.sh/helm/v3/pkg/chartutil`, not part of this repository): what
`chartutil.ReadValuesFile` makes of a value of the document.  The document goes through
JSON into a `map[string]interface{}`, in which `encoding/json` stores every number as a
`float64`. -/
def decoded : Node → Node
  | .int i => .float (roundFloat64 i)
  | .list items => .list (decodedList items)
  | .map entries => .map (decodedEntries entries)
  | n => n

/-- Decoding of the items of a sequence. -/
def decodedList : List Node → List Node
  | [] => []
  | n :: rest => decoded n :: decodedList rest

/-- Decoding of the entries of a mapping, and so of a whole document. -/
def decodedEntries : Values → Values
  | [] => []
  | (k, n) :: rest => (k, decoded n) :: decodedEntries rest

end

mutual

/-- Library behaviour (`gopkg.in/yaml.v2`, not part of this repository): the value that
the text `yaml.Marshal` writes for a Go value reads back as.  A `float64` below a million
in absolute value is written in plain digits, which read back as an integer; from a
million on it is written in exponent notation, which reads back as that `float64`. -/
def written : Node → Node
  | .float i => if i.natAbs < 1000000 then .int i else .float i
  | .list items => .list (writtenList items)
  | .map entries => .map (writtenEntries entries)
  | n => n

/-- What the text written for the items of a sequence stands for. -/
def writtenList : List Node → List Node
  | [] => []
  | n :: rest => written n :: writtenList rest

/-- What the text written for the entries of a mapping stands for. -/
def writtenEntries : Values → Values
  | [] => []
  | (k, n) :: rest => (k, written n) :: writtenEntries rest

end

end chartutil

namespace helmutils

open chartutil

/-- Package-level calls `UpdateValuesFile` makes: `chartutil.ReadValuesFile`,
`yaml.Marshal` and `os.WriteFile` (whose result is the Go `error`, `none` for nil; the file
mode is left out). -/
structure ValuesHost (δ : Type) where
  ReadValuesFile : String → δ → Except String Values
  Marshal : Values → Except String String
  WriteFile : String → String → δ → Option String × δ

/-- Go: `RealClient.UpdateValuesFile`.  The result is the Go `error` (`none` for nil). -/
def UpdateValuesFile (vh : ValuesHost δ) (hc : RealClient κ δ) (releaseName : String)
    (replicaCount : Int) (w : World κ δ) : Outcome κ δ (Option String) :=
  let chartPath := hc.Default.OutputDir ++ "/" ++ releaseName ++ "/values.yaml"
  match vh.ReadValuesFile chartPath w.disk with
  | .error e => ⟨some ("failed to read values file: " ++ e), w, [.ReadValuesFile chartPath]⟩
  | .ok values =>
    let valuesMap := values.set "replicas" (.int replicaCount)
    match vh.Marshal valuesMap with
    | .error e =>
      ⟨some ("failed to marshal values: " ++ e), w, [.ReadValuesFile chartPath]⟩
    | .ok data =>
      match vh.WriteFile chartPath data w.disk with
      | (err, d) =>
        ⟨err, ⟨w.cluster, d⟩, [.ReadValuesFile chartPath, .WriteFile chartPath data]⟩

end helmutils

namespace main

open helmutils

/-- Go: `Response`, the JSON body of a reply. -/
structure Response where
  Message : String
  Error : String := ""
  Data : List String := []
deriving DecidableEq, Repr

/-- Go: `ScaleUp ScaleAction = "up"`. -/
def ScaleUp : String := "up"

/-- Go: `ScaleDown ScaleAction = "down"`. -/
def ScaleDown : String := "down"

/-- Go: `Request`; `Action` is a `*ScaleAction`, a pointer to a string (`none` for nil). -/
structure Request where
  ChartMetadata : Metadata
  Action : Option String
deriving DecidableEq, Repr

/-- Go: the map literal `replicas` of `updateEnvHandler` and its lookup
`count, exists := replicas[action]`. -/
def replicas (action : String) : Option Int :=
  if action = ScaleUp then some 1
  else if action = ScaleDown then some 0
  else none

/-- What a handler wrote as the body: a JSON-encoded `Response`, the plain text of
`http.Error`, or nothing. -/
inductive Body
  | json (r : Response)
  | text (msg : String)
  | empty
deriving DecidableEq, Repr

/-- What a handler did with the request: it replied with a status code and a body, or it
panicked (a method call on a nil port). -/
inductive Served
  | reply (status : Nat) (body : Body)
  | panic (msg : String)
deriving DecidableEq, Repr

/-- Go: `updateEnvHandler`, from the call of `hc.UpgradeRelease` on. -/
def upgradeAndReply (hc : RealClient κ δ) (req : Request) (releaseName : String)
    (before : List Call) (w : World κ δ) : Outcome κ δ Served :=
  let g := UpgradeRelease hc releaseName w
  match g.result with
  | .error (.panic msg) => ⟨.panic msg, g.world, before ++ g.calls⟩
  | .error (.error e) =>
    ⟨.reply 500 (.json { Message := "Failed to update Helm chart", Error := e }), g.world,
      before ++ g.calls⟩
  | .ok _ =>
    ⟨.reply 200 (.json { Message := "Helm chart " ++ req.ChartMetadata.Name ++
        " successfully updated " ++ hc.Default.OutputDir }), g.world, before ++ g.calls⟩

/-- Go: `updateEnvHandler`.  `chartName` is the URL parameter and `body` what
`json.NewDecoder(r.Body).Decode(&req)` gives: the request or the decoding error.  A
handler that writes nothing replies 200 with an empty body. -/
def updateEnvHandler (os : Host δ) (vh : ValuesHost δ) (hc : RealClient κ δ)
    (chartName : String) (body : Except String Request) (w : World κ δ) :
    Outcome κ δ Served :=
  if chartName = "" then
    ⟨.reply 400 (.text "Missing required fields in request"), w, []⟩
  else
    let releaseName := defaults.EnvPrefix ++ chartName
    let dir := hc.Default.OutputDir ++ "/" ++ releaseName
    match os.Stat dir w.disk with
    | .notExist =>
      ⟨.reply 400
          (.text "env doesn't exists,please use creata-env endpoint for brand new env"),
        w, [.Stat dir]⟩
    | _ =>
      match body with
      | .error e =>
        ⟨.reply 400 (.json { Message := "Invalid request payload", Error := e }), w,
          [.Stat dir]⟩
      | .ok req =>
        match req.Action with
        | none => ⟨.reply 200 .empty, w, [.Stat dir]⟩
        | some action =>
          match replicas action with
          | some count =>
            let u := UpdateValuesFile vh hc releaseName count w
            match u.result with
            | some e =>
              ⟨.reply 500 (.json { Message := "Updating values.yaml failed", Error := e }),
                u.world, .Stat dir :: u.calls⟩
            | none => upgradeAndReply hc req releaseName (.Stat dir :: u.calls) u.world
          | none => upgradeAndReply hc req releaseName [.Stat dir] w

end main

namespace helm

open helmutils

/-- Go: `regexp.MatchString(pat, s)` for a pattern without metacharacters: some position
of `s` starts an occurrence of `pat`. -/
def matchLiteral (pat : List Char) : List Char → Bool
  | [] => pat.isEmpty
  | c :: cs => pat.isPrefixOf (c :: cs) || matchLiteral pat cs

/-- Release store of the configured namespace: the names of its deployed releases. -/
abbrev Store := List String

/-- Release record the store gives back for a name. -/
def storedRelease (ns name : String) : Release :=
  { Name := name, Namespace := ns, Manifest := "" }

/-- Helm's own actions (package `helm.sh/helm/v3/pkg/action`, which the client is built
for and which is not part of this repository), over a store of release names.
`List.Run` compiles `Filter` as a regular expression and keeps the releases for which
`MatchString` finds it in the name (listed here in store order); install refuses a name in
use and adds the release; upgrade and uninstall need the release to be there, and
uninstall removes it. -/
def actioner (ns : String) : HelmActioner Store where
  NewList := .helm fun o store =>
    .ok ((store.filter fun n => matchLiteral o.Filter.toList n.toList).map (storedRelease ns))
  NewInstall := .helm fun o _ store =>
    if store.contains o.ReleaseName then
      (.error "cannot re-use a name that is still in use", store)
    else (.ok (storedRelease o.Namespace o.ReleaseName), store ++ [o.ReleaseName])
  NewUpgrade := .helm fun _ name _ store =>
    if store.contains name then (.ok (storedRelease ns name), store)
    else (.error (name ++ " has no deployed releases"), store)
  NewUninstall := .helm fun _ name store =>
    if store.contains name then
      (.ok { Release := storedRelease ns name, Info := "" }, store.filter fun n => n != name)
    else (.error ("uninstall: Release not loaded: " ++ name ++ ": release: not found"), store)

end helm

namespace memfs

open helmutils

/-- Directory on the in-memory disk, with the metadata of the chart it holds, if any, and
the text of its `values.yaml`, if it has one. -/
structure Dir where
  path : String
  chart : Option Metadata
  values : Option String := none
deriving DecidableEq, Repr

/-- In-memory disk: the directories that exist. -/
abbrev Disk := List Dir

/-- In-memory `os.Stat`. -/
def Stat (p : String) (d : Disk) : StatResult :=
  if d.any fun e => e.path == filepath.Clean p then .ok else .notExist

/-- In-memory chart loader: the chart held by the directory at the path. -/
def Load (p : String) (d : Disk) : Except String Chart :=
  match d.find? fun e => e.path == filepath.Clean p with
  | some { path := _, chart := some m, values := _ } => .ok { Metadata := m }
  | _ => .error ("stat " ++ p ++ ": no such file or directory")

/-- In-memory `chartutil.CreateFrom`: loads the source chart, gives it the new metadata and
saves it under `filepath.Join(dest, name)`, in place of what was there. -/
def CreateFrom (m : Metadata) (dest src : String) (d : Disk) : Option String × Disk :=
  match Load src d with
  | .error e => (some ("could not load " ++ src ++ ": " ++ e), d)
  | .ok _ =>
    (none, (d.filter fun e => e.path != filepath.Join dest m.Name) ++
      [{ path := filepath.Join dest m.Name, chart := some m }])

/-- In-memory host. -/
def host : Host Disk :=
  { Stat := Stat, CreateFrom := CreateFrom }

/-- In-memory chart loader port. -/
def loader : ChartLoader Disk :=
  { Load := Load }

/-- File-system port on a disk that refuses deletions. -/
def readOnlyFilesystem : FileSystem Disk :=
  { DeleteSubfolder := fun p d => (some ("unlinkat " ++ p ++ ": permission denied"), d) }

/-- Split a text at every occurrence of a separator character. -/
def splitAt (sep : Char) : List Char → List (List Char)
  | [] => [[]]
  | c :: cs =>
    if c = sep then [] :: splitAt sep cs
    else
      match splitAt sep cs with
      | [] => [[c]]
      | e :: es => (c :: e) :: es

/-- Split a line of a flat document at its first `": "` into key and value text. -/
def splitEntry : List Char → Option (List Char × List Char)
  | [] => none
  | c :: cs =>
    if c = ':' ∧ cs.head? = some ' ' then some ([], cs.tail)
    else (splitEntry cs).map fun kv => (c :: kv.1, kv.2)

/-- Whether a text is a non-empty run of decimal digits. -/
def isNumeral (t : List Char) : Bool :=
  !t.isEmpty && t.all Char.isDigit

/-- Number a run of decimal digits stands for. -/
def numeral (t : List Char) : Nat :=
  t.foldl (fun n c => 10 * n + (c.toNat - 48)) 0

/-- Decimal digits of a number, the last digit first; `fuel` bounds the number of digits. -/
def digitsRev : Nat → Nat → List Char
  | 0, _ => []
  | fuel + 1, n =>
    if n < 10 then [Char.ofNat (48 + n)]
    else Char.ofNat (48 + n % 10) :: digitsRev fuel (n / 10)

/-- Decimal digits of a natural number. -/
def digits (n : Nat) : List Char :=
  (digitsRev (n + 1) n).reverse

/-- Whether a text is a decimal integer: digits without a leading zero, or `0`, after an
optional `-`. -/
def isDecimal (t : List Char) : Bool :=
  let ds := if t.head? = some '-' then t.tail else t
  isNumeral ds && (ds.length == 1 || ds.head? != some '0')

/-- Integer a decimal text stands for. -/
def decimal (t : List Char) : Int :=
  if t.head? = some '-' then -(numeral t.tail : Int) else (numeral t : Int)

/-- Integer a number in exponent notation stands for, in the form `d.ddde+xx` in which
`formatFloat` writes it; none for any other text. -/
def exponent (t : List Char) : Option Int :=
  let neg := t.head? = some '-'
  let body := if neg then t.tail else t
  match splitAt 'e' body with
  | [mant, '+' :: ex] =>
    if isNumeral ex then
      match splitAt '.' mant with
      | [[d]] =>
        if d.isDigit ∧ d ≠ '0' then
          some ((if neg then -1 else 1) * ((numeral [d] * 10 ^ numeral ex : Nat) : Int))
        else none
      | [[d], frac] =>
        if d.isDigit ∧ d ≠ '0' ∧ isNumeral frac ∧ frac.length ≤ numeral ex then
          some ((if neg then -1 else 1) *
            ((numeral (d :: frac) * 10 ^ (numeral ex - frac.length) : Nat) : Int))
        else none
      | _ => none
    else none
  | _ => none

/-- Go: `strconv.FormatFloat(x, 'g', -1, 64)`, with which `yaml.Marshal` writes a
`float64`, for an integer value: plain digits below a million, otherwise the exponent
notation `d.ddde+xx` with the trailing zeros of the mantissa dropped.  The digits are those
of the exact value, which are the shortest ones that read back as the same `float64` for
values up to `2^53`. -/
def formatFloat (i : Int) : List Char :=
  let ds := digits i.natAbs
  let sign := if i < 0 then ['-'] else []
  if ds.length ≤ 6 then sign ++ ds
  else
    let ex := digits (ds.length - 1)
    let frac := (ds.tail.reverse.dropWhile fun c => c == '0').reverse
    sign ++ ds.head?.toList ++ (if frac = [] then [] else '.' :: frac) ++ 'e' :: '+' ::
      (if ex.length < 2 then '0' :: ex else ex)

/-- Plain scalars YAML 1.1 reads as `true`. -/
def trueWords : List String :=
  ["y", "Y", "yes", "Yes", "YES", "true", "True", "TRUE", "on", "On", "ON"]

/-- Plain scalars YAML 1.1 reads as `false`. -/
def falseWords : List String :=
  ["n", "N", "no", "No", "NO", "false", "False", "FALSE", "off", "Off", "OFF"]

/-- Plain scalars YAML 1.1 reads as null. -/
def nullWords : List String := ["", "~", "null", "Null", "NULL"]

/-- Whether a text is a word that is written and read back as a plain string: it starts
with a letter, holds letters, digits, `-`, `_`, `.` and `/` only, and is not one of the
words read as a boolean or null. -/
def isPlainWord (t : List Char) : Bool :=
  (match t with
    | [] => false
    | c :: _ => c.isAlpha) &&
    t.all (fun c => c.isAlphanum || c == '-' || c == '_' || c == '.' || c == '/') &&
    !(trueWords ++ falseWords ++ nullWords).contains (String.mk t)

/-- Scalar of a flat document as `yaml.Marshal` writes it: `null`, `true` or `false`, a Go
`int` in decimal, a `float64` as `formatFloat` gives it, a plain word as it is.  Strings
that are not plain words, sequences and mappings are beyond this stand-in. -/
def printScalar : chartutil.Node → Option (List Char)
  | .null => some "null".toList
  | .bool b => some (if b then "true".toList else "false".toList)
  | .int i => some ((if i < 0 then ['-'] else []) ++ digits i.natAbs)
  | .float i => some (formatFloat i)
  | .str s => if isPlainWord s.toList then some s.toList else none
  | _ => none

/-- Value the text of a scalar of a flat document reads as (`yaml.Unmarshal` into an
`interface{}`): a boolean or null word, a decimal integer, exact, a number in exponent
notation as a `float64`, and a string otherwise. -/
def parseScalar (t : List Char) : chartutil.Node :=
  if trueWords.contains (String.mk t) then .bool true
  else if falseWords.contains (String.mk t) then .bool false
  else if nullWords.contains (String.mk t) then .null
  else if isDecimal t then .int (decimal t)
  else
    match exponent t with
    | some i => .float (chartutil.roundFloat64 i)
    | none => .str (String.mk t)

/-- Number the run of decimal digits at the head of a text stands for, counted on from
`n`, and the length of the run. -/
def digitRun : Nat → List Char → Nat × Nat
  | n, [] => (n, 0)
  | n, c :: cs =>
    if c.isDigit then
      ((digitRun (10 * n + (c.toNat - 48)) cs).1, (digitRun (10 * n + (c.toNat - 48)) cs).2 + 1)
    else (n, 0)

/-- Whether the run of digits that ends a text, given last character first, holds a digit
other than `0`. -/
def nonZeroBefore : List Char → Bool
  | [] => false
  | c :: cs => c.isDigit && (c != '0' || nonZeroBefore cs)

/-- Go (`gopkg.in/yaml.v2`, `keyList.Less` on two string keys, for ASCII): the order in
which `yaml.Marshal` writes the keys of a map.  At the first position where the keys
differ, two letters compare by code, a letter comes after anything else, and otherwise the
runs of digits that start there compare as numbers; a key that is a proper beginning of
the other comes first.  `before` is the common beginning, last character first. -/
def keyLessFrom (before : List Char) : List Char → List Char → Bool
  | [], [] => false
  | [], _ :: _ => true
  | _ :: _, [] => false
  | x :: xs, y :: ys =>
    if x = y then keyLessFrom (x :: before) xs ys
    else if x.isAlpha && y.isAlpha then decide (x < y)
    else if x.isAlpha || y.isAlpha then y.isAlpha
    else
      let lead := if (x == '0' || y == '0') && nonZeroBefore before then 1 else 0
      let a := digitRun lead (x :: xs)
      let b := digitRun lead (y :: ys)
      if a.1 ≠ b.1 then decide (a.1 < b.1)
      else if a.2 ≠ b.2 then decide (a.2 < b.2)
      else decide (x < y)

/-- Insert an entry into entries that are in key order. -/
def insertKey (e : String × chartutil.Node) : chartutil.Values → chartutil.Values
  | [] => [e]
  | f :: rest =>
    if keyLessFrom [] e.1.toList f.1.toList then e :: f :: rest else f :: insertKey e rest

/-- Entries of a mapping in the order in which `yaml.Marshal` writes them. -/
def sortKeys (m : chartutil.Values) : chartutil.Values :=
  m.foldr insertKey []

/-- Entries as text, one `key: value` line each. -/
def printLines : chartutil.Values → Option (List Char)
  | [] => some []
  | (k, v) :: rest =>
    match printScalar v, printLines rest with
    | some t, some more =>
      if isPlainWord k.toList then some (k.toList ++ ':' :: ' ' :: t ++ Char.ofNat 10 :: more)
      else none
    | _, _ => none

/-- Entries of the lines of a flat document; an empty line holds none. -/
def parseLines : List (List Char) → Option chartutil.Values
  | [] => some []
  | line :: rest =>
    if line = [] then parseLines rest
    else
      match splitEntry line, parseLines rest with
      | some kv, some more => some ((String.mk kv.1, parseScalar kv.2) :: more)
      | _, _ => none

/-- Mapping the text of a flat document reads as, integers exact; none when the text is
not a flat mapping. -/
def parseDocument (text : String) : Option chartutil.Values :=
  parseLines (splitAt (Char.ofNat 10) text.toList)

/-- Whether a text that is not a flat mapping is a YAML sequence: it has a line, and each
of its lines starts with `-`. -/
def isSequence (text : String) : Bool :=
  ((splitAt (Char.ofNat 10) text.toList).any fun l => !l.isEmpty) &&
    (splitAt (Char.ofNat 10) text.toList).all fun l => l.isEmpty || l.head? == some '-'

/-- Document the `values.yaml` at a path holds on the in-memory disk, as `yaml.Unmarshal`
of the file reads it (the way `TestUpdateValuesFile` reads the file back): integers
exact. -/
def Document (p : String) (d : Disk) : Option chartutil.Values :=
  match d.find? fun e => filepath.Join e.path "values.yaml" == filepath.Clean p with
  | some { path := _, chart := _, values := some text } => parseDocument text
  | _ => none

/-- In-memory `chartutil.ReadValuesFile`, for flat documents (one `key: value` line per
entry, without duplicate keys, the values as `parseScalar` reads them): the document of the
`values.yaml` at the path, decoded as the library decodes it.  A text that is not a mapping
is refused with the message of the JSON decoder. -/
def ReadValuesFile (p : String) (d : Disk) : Except String chartutil.Values :=
  match d.find? fun e => filepath.Join e.path "values.yaml" == filepath.Clean p with
  | some { path := _, chart := _, values := some text } =>
    match parseDocument text with
    | some vals => .ok (chartutil.decodedEntries vals)
    | none =>
      .error ("error unmarshaling JSON: while decoding JSON: json: cannot unmarshal " ++
        (if isSequence text then "array" else "string") ++
        " into Go value of type chartutil.Values")
  | _ => .error ("open " ++ p ++ ": no such file or directory")

/-- In-memory `yaml.Marshal` for flat documents: the entries in key order, one line each.
A value `printScalar` does not cover, or a key that is not a plain word, is beyond this
stand-in and reported as an error. -/
def Marshal (vals : chartutil.Values) : Except String String :=
  match printLines (sortKeys vals) with
  | some t => .ok (String.mk t)
  | none => .error "cannot marshal"

/-- In-memory `os.WriteFile` for the `values.yaml` of an existing directory. -/
def WriteFile (p data : String) (d : Disk) : Option String × Disk :=
  if d.any fun e => filepath.Join e.path "values.yaml" == filepath.Clean p then
    (none, d.map fun e =>
      if filepath.Join e.path "values.yaml" == filepath.Clean p then
        { e with values := some data }
      else e)
  else (some ("open " ++ p ++ ": no such file or directory"), d)

/-- In-memory values host. -/
def valuesHost : ValuesHost Disk :=
  { ReadValuesFile := ReadValuesFile, Marshal := Marshal, WriteFile := WriteFile }

end memfs

namespace utils

/-- Go: `utils.DeleteSubfolder`, that is `os.RemoveAll`, on the in-memory disk: the
directory and everything below it go, and a path that is not there is no error. -/
def DeleteSubfolder (path : String) (d : memfs.Disk) : Option String × memfs.Disk :=
  (none, d.filter fun e =>
    e.path != filepath.Clean path &&
      !(filepath.Clean path ++ "/").toList.isPrefixOf e.path.toList)

end utils

namespace defaults

/-- Go: `HelmDriver = "secrets"`. -/
def HelmDriver : String := "secrets"

end defaults

namespace strings

/-- Whether some position of the text starts an occurrence of `substr`. -/
def containsChars (substr : List Char) : List Char → Bool
  | [] => substr.isEmpty
  | c :: cs => substr.isPrefixOf (c :: cs) || containsChars substr cs

/-- Go: `strings.Contains(s, substr)`. -/
def Contains (s substr : String) : Bool :=
  containsChars substr.toList s.toList

/-- Go: `strings.TrimPrefix(s, lead)`. -/
def TrimPrefix (s lead : String) : String :=
  if lead.toList.isPrefixOf s.toList then String.mk (s.toList.drop lead.toList.length)
  else s

/-- Go: `strings.ToLower(s)`, on the letters `A` to `Z`. -/
def ToLower (s : String) : String :=
  String.mk (s.toList.map Char.toLower)

end strings

namespace utils

/-- Process environment as `os.Getenv` reads it: the value of a variable, the empty
string when it is not set. -/
abbrev Environ := String → String

/-- Go: the slice `required` of `ValidateAPIKeys`. -/
def required : List String :=
  ["HELM_API_CREATE_API_KEY", "HELM_API_DELETE_API_KEY", "HELM_API_UPDATE_API_KEY"]

/-- Go: the loop of `ValidateAPIKeys` over the required keys that are left. -/
def validateKeys (env : Environ) : List String → Option String
  | [] => none
  | key :: rest =>
    if env key = "" then
      some ("master " ++ strings.ToLower (strings.TrimPrefix key "HELM_API_") ++ " missing")
    else validateKeys env rest

/-- Go: `utils.ValidateAPIKeys`.  The result is the Go `error` (`none` for nil). -/
def ValidateAPIKeys (env : Environ) : Option String :=
  validateKeys env required

/-- Go: `utils.GetEnvOrValue`. -/
def GetEnvOrValue (env : Environ) (envKey defaultValue : String) : String :=
  if env envKey ≠ "" then env envKey else defaultValue

/-- Go: `utils.Contains`, on strings as sequences of symbols (bytes in Go).  The slice
`str[1:]` is only reached when `len(str) > len(substr)`, so `str` is not empty there. -/
def Contains {α : Type} [DecidableEq α] : List α → List α → Bool
  | str, substr =>
    decide (str.length ≥ substr.length) &&
      (decide (str = substr) ||
        (decide (str.length > substr.length) &&
          match str with
          | [] => false
          | _ :: rest => Contains rest substr))

end utils

namespace apiutils

/-- Go: `EndpointConfig`. -/
structure EndpointConfig where
  Path : String
  APIKey : String := ""
  NoAuth : Bool := false
deriving DecidableEq, Repr

/-- Go: the slice `endpoints` of `ValidateEndpoint`. -/
def endpoints (env : utils.Environ) : List EndpointConfig :=
  [{ Path := "create-env", APIKey := env "HELM_API_CREATE_API_KEY" },
    { Path := "update-env", APIKey := env "HELM_API_UPDATE_API_KEY" },
    { Path := "delete-env", APIKey := env "HELM_API_DELETE_API_KEY" },
    { Path := "health-check", NoAuth := true },
    { Path := "list", NoAuth := true }]

/-- Go: the loop of `ValidateEndpoint` over the endpoints that are left, with the
`return false` after it. -/
def validateLoop (path apiKey : String) : List EndpointConfig → Bool
  | [] => false
  | endpoint :: rest =>
    if strings.Contains path endpoint.Path then
      if endpoint.NoAuth then true else endpoint.APIKey == apiKey
    else validateLoop path apiKey rest

/-- Go: `apiutils.ValidateEndpoint`. -/
def ValidateEndpoint (env : utils.Environ) (path apiKey : String) : Bool :=
  validateLoop path apiKey (endpoints env)

/-- Verdict as the specification words it: that of the first name, in the order
`create-env`, `update-env`, `delete-env`, `health-check`, `list`, that occurs in the path:
the key comparison for the first three, `true` for the last two, and `false` when no name
occurs. -/
def firstEntryVerdict (env : utils.Environ) (path apiKey : String) : Bool :=
  match ["create-env", "update-env", "delete-env", "health-check", "list"].find?
      fun name => strings.Contains path name with
  | none => false
  | some name =>
    if name = "create-env" then apiKey == env "HELM_API_CREATE_API_KEY"
    else if name = "update-env" then apiKey == env "HELM_API_UPDATE_API_KEY"
    else if name = "delete-env" then apiKey == env "HELM_API_DELETE_API_KEY"
    else true

/-- What the middleware reads of a request: `r.URL.Path` and `r.Header.Get("X-API-Key")`,
which is the empty string when the header is absent. -/
structure HttpRequest where
  Path : String
  XAPIKey : String
deriving DecidableEq, Repr

/-- What serving a request through the middleware did: the state the wrapped handler left
(it acts on the response writer and whatever else it holds), the requests handed to it,
and the status and body `http.Error` wrote, if it was called. -/
structure Passage (σ : Type) where
  state : σ
  forwarded : List HttpRequest
  refused : Option (Nat × String)

/-- Go: `apiutils.AuthMiddleware(next).ServeHTTP`. -/
def AuthMiddleware (env : utils.Environ) (next : HttpRequest → σ → σ) (r : HttpRequest)
    (s : σ) : Passage σ :=
  let apiKey := r.XAPIKey
  if ValidateEndpoint env r.Path apiKey then
    { state := next r s, forwarded := [r], refused := none }
  else
    { state := s, forwarded := [], refused := some (401, "Unauthorized\n") }

end apiutils

namespace helmutils

/-- Go: `Config`. -/
structure Config where
  Namespace : String
  OutputDir : String
  SourceDir : String
  HelmDriver : String
deriving DecidableEq, Repr

/-- Values of the four flags of `loadConfig`: their defaults, as `flag.Parse` is never
called. -/
def flagDefaults : Config :=
  { Namespace := defaults.NameSpace, OutputDir := defaults.OutPutDir,
    SourceDir := defaults.SourceDir, HelmDriver := defaults.HelmDriver }

/-- Go: `loadConfig`; its error is always nil. -/
def loadConfig (env : utils.Environ) : Config :=
  { Namespace := utils.GetEnvOrValue env "HELM_API_NAMESPACE" flagDefaults.Namespace,
    OutputDir := utils.GetEnvOrValue env "HELM_API_HELM_OUT_DIR" flagDefaults.OutputDir,
    SourceDir := utils.GetEnvOrValue env "HELM_API_HELM_SOURCE_DIR" flagDefaults.SourceDir,
    HelmDriver := utils.GetEnvOrValue env "HELM_DRIVER" flagDefaults.HelmDriver }

/-- Go: `NewRealClient`.  `init` is `actionConfig.Init` for a namespace and a driver, giving
the Go `error` (`none` for nil).  The struct literal returned sets `ActionConfig`, `Logger`
and `Default` only, so the three ports keep their zero value, nil. -/
def NewRealClient (env : utils.Environ) (init : String → String → Option String) :
    Except String (RealClient κ δ) :=
  let config := loadConfig env
  match utils.ValidateAPIKeys env with
  | some err => .error err
  | none =>
    match init config.Namespace config.HelmDriver with
    | some err => .error ("failed to initialize Helm action configuration: " ++ err)
    | none =>
      .ok { Default := { Namespace := config.Namespace, OutputDir := config.OutputDir,
                         SourceDir := config.SourceDir },
            Actioner := none, ChartLoader := none, Filesystem := none }

/-- Environment with the three API keys set, as the tests set them. -/
def keyedEnv : utils.Environ := fun key =>
  if key = "HELM_API_CREATE_API_KEY" then "create-key"
  else if key = "HELM_API_UPDATE_API_KEY" then "update-key"
  else if key = "HELM_API_DELETE_API_KEY" then "delete-key"
  else ""

/-- Environment in which the delete key is missing. -/
def partlyKeyedEnv : utils.Environ := fun key =>
  if key = "HELM_API_CREATE_API_KEY" then "create-key"
  else if key = "HELM_API_UPDATE_API_KEY" then "update-key"
  else ""

end helmutils

namespace helmutils

/-- Configuration `loadConfig` produces when no flag or environment variable overrides
the defaults. -/
def defaultValue : Value :=
  { Namespace := defaults.NameSpace, OutputDir := defaults.OutPutDir,
    SourceDir := defaults.SourceDir }

/-- Client wired to Helm's actions and the in-memory disk, with the given file-system
port. -/
def wiredClient (fs : FileSystem memfs.Disk) : RealClient helm.Store memfs.Disk :=
  { Default := defaultValue, Actioner := some (helm.actioner defaults.NameSpace),
    ChartLoader := some memfs.loader, Filesystem := some fs }

/-- Go (`helmutils_test.go`): `MockHelmActioner` handing out a `MockListAction`, which is
not Helm's `*action.List`: the fields the client would set do not reach it, and its `Run`
returns the releases it was set up with, here those of the store. -/
def mockListActioner : HelmActioner helm.Store :=
  { helm.actioner defaults.NameSpace with
    NewList := .other fun store => .ok (store.map (helm.storedRelease defaults.NameSpace)) }

/-- Go (`helmutils_test.go`): `MockHelmActioner` handing out `MockListAction`,
`MockInstallAction`, `MockUpgradeAction` and `MockUninstallAction`, none of which is a Helm
type.  Each `Run` returns what the test set it up with: the releases of the store for the
listing, an empty release for the others, and the cluster stays as it is. -/
def mockActioner : HelmActioner helm.Store :=
  { NewList := .other fun store => .ok (store.map (helm.storedRelease defaults.NameSpace)),
    NewInstall := .other fun _ store =>
      (.ok { Name := "", Namespace := "", Manifest := "" }, store),
    NewUpgrade := .other fun _ _ store =>
      (.ok { Name := "", Namespace := "", Manifest := "" }, store),
    NewUninstall := .other fun _ store =>
      (.ok { Release := { Name := "", Namespace := "", Manifest := "" }, Info := "" }, store) }

/-- Client wired to the test doubles of the actions and the in-memory disk. -/
def mockClient : RealClient helm.Store memfs.Disk :=
  { Default := defaultValue, Actioner := some mockActioner,
    ChartLoader := some memfs.loader,
    Filesystem := some { DeleteSubfolder := utils.DeleteSubfolder } }

/-- Actions of a backend whose cluster cannot be reached: listing fails, as Helm's
`List.Run` does when `IsReachable` reports an error. -/
def unreachableActioner : HelmActioner helm.Store :=
  { helm.actioner defaults.NameSpace with
    NewList := .helm fun _ _ => .error "Kubernetes cluster unreachable" }

/-- Client whose backend cannot be reached. -/
def unreachableClient : RealClient helm.Store memfs.Disk :=
  { wiredClient memfs.readOnlyFilesystem with Actioner := some unreachableActioner }

/-- World in which release `test-a` is deployed and its chart is on disk. -/
def deployedWorld : World helm.Store memfs.Disk :=
  { cluster := ["test-a"],
    disk := [{ path := "charts", chart := none },
      { path := "charts/test-a",
        chart := some { Name := "test-a", Version := "0.1.0", Description := "d" } }] }

/-- World in which the chart `test-b` is on disk and not yet installed. -/
def installableWorld : World helm.Store memfs.Disk :=
  { cluster := ["test-a"],
    disk := [{ path := "charts", chart := none },
      { path := "charts/test-b",
        chart := some { Name := "test-b", Version := "0.2.0", Description := "d" } }] }

/-- World in which release `test-a` is deployed and its chart, with a values document, is
on disk. -/
def scalableWorld : World helm.Store memfs.Disk :=
  { cluster := ["test-a"],
    disk := [{ path := "charts", chart := none },
      { path := "charts/test-a",
        chart := some { Name := "test-a", Version := "0.1.0", Description := "d" },
        values := some "other: value\nreplicas: 1\n" }] }

/-- World in which the values document of `test-a` is not a mapping. -/
def malformedWorld : World helm.Store memfs.Disk :=
  { cluster := ["test-a"],
    disk := [{ path := "charts", chart := none },
      { path := "charts/test-a",
        chart := some { Name := "test-a", Version := "0.1.0", Description := "d" },
        values := some "- just\n- a list\n" }] }

/-- World in which the namespace holds `latest-app`, a release this program did not
create, next to its own `test-a`. -/
def sharedWorld : World helm.Store memfs.Disk :=
  { cluster := ["latest-app", "test-a"],
    disk := [{ path := "charts", chart := none },
      { path := "charts/test-a",
        chart := some { Name := "test-a", Version := "0.1.0", Description := "d" } }] }

/-- World with the source template and an empty output directory. -/
def freshWorld : World helm.Store memfs.Disk :=
  { cluster := [],
    disk := [{ path := "charts", chart := none },
      { path := "source/helm/mariadb",
        chart := some { Name := "mariadb", Version := "1.0.0", Description := "template" } }] }

/-- World with the source template and no output directory. -/
def sourceOnlyWorld : World helm.Store memfs.Disk :=
  { cluster := [],
    disk := [
      { path := "source/helm/mariadb",
        chart := some { Name := "mariadb", Version := "1.0.0", Description := "template" } }] }

/-- The three `os.Stat` calls of a `CreateHelmChartFromSource` that gets past its two
directory checks. -/
def statCalls (hc : RealClient κ δ) (options : Metadata) : List Call :=
  [.Stat hc.Default.SourceDir, .Stat hc.Default.OutputDir,
    .Stat (hc.Default.OutputDir ++ "/" ++ (defaults.EnvPrefix ++ options.Name))]

/-! ## Theorems -/

theorem ListReleases_world (hc : RealClient κ δ) (w : World κ δ) :
    (ListReleases hc w).world = w := by
  unfold ListReleases
  cases hc.Actioner with
  | none => rfl
  | some a =>
    simp only
    cases a.listRun listOptions w.cluster <;> rfl

theorem listFields_of_actioner (hc : RealClient κ δ) (a : HelmActioner κ)
    (hA : hc.Actioner = some a) : listFields hc = a.NewList.fields listOptions := by
  simp only [listFields, hA]

theorem ListReleases_calls_of_ok (hc : RealClient κ δ) (w : World κ δ) (names : List String)
    (h : (ListReleases hc w).result = .ok names) :
    (ListReleases hc w).calls = [.NewList, .ListRun (listFields hc)] := by
  unfold ListReleases at h ⊢
  cases hA : hc.Actioner with
  | none => simp [hA] at h
  | some a =>
    rw [listFields_of_actioner hc a hA]
    simp only [hA] at h ⊢
    cases a.listRun listOptions w.cluster <;> rfl

theorem ListReleases_ok_of_listRun (hc : RealClient κ δ) (w : World κ δ)
    (a : HelmActioner κ) (hA : hc.Actioner = some a) (names : List String)
    (h : (ListReleases hc w).result = .ok names) :
    ∃ rels, a.listRun listOptions w.cluster = .ok rels ∧ names = rels.map fun v => v.Name := by
  unfold ListReleases at h
  simp only [hA] at h
  cases hl : a.listRun listOptions w.cluster with
  | error e => simp [hl] at h
  | ok rels =>
    simp only [hl, Except.ok.injEq] at h
    exact ⟨rels, rfl, h.symm⟩

/-- C1 (as the code behaves): release `test-a` is deployed and `ListReleases` returns the
qualified name `test-a`, yet `InstallRelease("charts/test-a", "a")`, called with the
unqualified name as `createEnvHandler` calls it, passes the existence check, loads the
chart and runs the backend install for `test-a`; the failure it returns is the backend's,
not the already-exists error. -/
theorem InstallRelease_unqualified_name_reaches_backend :
    (ListReleases (wiredClient memfs.readOnlyFilesystem) deployedWorld).result
        = .ok [defaults.EnvPrefix ++ "a"] ∧
      (InstallRelease (wiredClient memfs.readOnlyFilesystem) "charts/test-a" "a"
          deployedWorld).calls
        = [.NewList, .ListRun (some listOptions), .NewInstall, .Load "charts/test-a",
            .InstallRun
              (some { ReleaseName := "test-a", Namespace := "helm-api-pg", Wait := true,
                      Timeout := 300, DryRun := false })
              { Metadata := { Name := "test-a", Version := "0.1.0", Description := "d" } }] ∧
      (InstallRelease (wiredClient memfs.readOnlyFilesystem) "charts/test-a" "a"
          deployedWorld).result
        = .error (.error "cannot re-use a name that is still in use") := by
  refine ⟨?_, ?_, ?_⟩ <;> rfl

/-- C2: if `ListReleases` succeeds and its result contains `r`, `InstallRelease(chartPath, r)`
returns the already-exists error (and so no release), makes no call besides the listing
(neither `ChartLoader.Load` nor the install action runs) and leaves the world as it was. -/
theorem InstallRelease_name_in_list (hc : RealClient κ δ) (w : World κ δ)
    (chartPath r : String) (names : List String)
    (hlist : (ListReleases hc w).result = .ok names) (hmem : r ∈ names) :
    (InstallRelease hc chartPath r w).result =
        .error (.error ("release for " ++ r ++ " already exist please use update-env endpoint")) ∧
      (InstallRelease hc chartPath r w).calls = [.NewList, .ListRun (listFields hc)] ∧
      (InstallRelease hc chartPath r w).world = w := by
  have hw := ListReleases_world hc w
  have hcalls := ListReleases_calls_of_ok hc w names hlist
  have hcont : names.contains r = true := by simpa using hmem
  simp only [InstallRelease, hlist, hcont, if_true, hw, hcalls, and_self]

theorem InstallRelease_name_in_list_witness :
    (InstallRelease (wiredClient memfs.readOnlyFilesystem) "charts/test-a" "test-a"
          deployedWorld).result =
        .error (.error ("release for " ++ "test-a" ++
          " already exist please use update-env endpoint")) ∧
      (InstallRelease (wiredClient memfs.readOnlyFilesystem) "charts/test-a" "test-a"
          deployedWorld).calls = [.NewList, .ListRun (some listOptions)] ∧
      (InstallRelease (wiredClient memfs.readOnlyFilesystem) "charts/test-a" "test-a"
          deployedWorld).world = deployedWorld :=
  InstallRelease_name_in_list (wiredClient memfs.readOnlyFilesystem) deployedWorld
    "charts/test-a" "test-a" ["test-a"] rfl (by decide)

/-- C3: if `ListReleases` succeeds and its result does not contain `r`, `UpgradeRelease(r)`
returns the not-found error (and so no release), makes no call besides the listing
(neither `ChartLoader.Load` nor the upgrade action runs) and leaves the world as it was. -/
theorem UpgradeRelease_name_not_in_list (hc : RealClient κ δ) (w : World κ δ)
    (r : String) (names : List String)
    (hlist : (ListReleases hc w).result = .ok names) (hmem : r ∉ names) :
    (UpgradeRelease hc r w).result =
        .error (.error ("release name doesn't match any of helm-api related environments, " ++
          "please use correct release name: " ++ r)) ∧
      (UpgradeRelease hc r w).calls = [.NewList, .ListRun (listFields hc)] ∧
      (UpgradeRelease hc r w).world = w := by
  have hw := ListReleases_world hc w
  have hcalls := ListReleases_calls_of_ok hc w names hlist
  simp [UpgradeRelease, hlist, hmem, hw, hcalls]

theorem UpgradeRelease_name_not_in_list_witness :
    (UpgradeRelease (wiredClient memfs.readOnlyFilesystem) "test-b" deployedWorld).result =
        .error (.error ("release name doesn't match any of helm-api related environments, " ++
          "please use correct release name: " ++ "test-b")) ∧
      (UpgradeRelease (wiredClient memfs.readOnlyFilesystem) "test-b" deployedWorld).calls
        = [.NewList, .ListRun (some listOptions)] ∧
      (UpgradeRelease (wiredClient memfs.readOnlyFilesystem) "test-b" deployedWorld).world
        = deployedWorld :=
  UpgradeRelease_name_not_in_list (wiredClient memfs.readOnlyFilesystem) deployedWorld
    "test-b" ["test-a"] rfl (by decide)

/-- C4: if `ListReleases` succeeds and its result does not contain `r`,
`UninstallRelease(r)` returns the not-found error (and so no result), makes no call besides
the listing (neither the uninstall action nor `DeleteSubfolder` runs) and leaves the world,
the disk included, as it was. -/
theorem UninstallRelease_name_not_in_list (hc : RealClient κ δ) (w : World κ δ)
    (r : String) (names : List String)
    (hlist : (ListReleases hc w).result = .ok names) (hmem : r ∉ names) :
    (UninstallRelease hc r w).result =
        .error (.error ("release name doesn't match any of helm-api related environments, " ++
          "please use correct release name: " ++ r)) ∧
      (UninstallRelease hc r w).calls = [.NewList, .ListRun (listFields hc)] ∧
      (UninstallRelease hc r w).world = w := by
  have hw := ListReleases_world hc w
  have hcalls := ListReleases_calls_of_ok hc w names hlist
  simp [UninstallRelease, hlist, hmem, hw, hcalls]

theorem UninstallRelease_name_not_in_list_witness :
    (UninstallRelease (wiredClient memfs.readOnlyFilesystem) "test-b" deployedWorld).result =
        .error (.error ("release name doesn't match any of helm-api related environments, " ++
          "please use correct release name: " ++ "test-b")) ∧
      (UninstallRelease (wiredClient memfs.readOnlyFilesystem) "test-b" deployedWorld).calls
        = [.NewList, .ListRun (some listOptions)] ∧
      (UninstallRelease (wiredClient memfs.readOnlyFilesystem) "test-b" deployedWorld).world
        = deployedWorld :=
  UninstallRelease_name_not_in_list (wiredClient memfs.readOnlyFilesystem) deployedWorld
    "test-b" ["test-a"] rfl (by decide)

theorem helm_uninstall_removes (ns : String) (o : UninstallOptions) (name : String)
    (k₀ : helm.Store) (resp : UninstallReleaseResponse) (k₁ : helm.Store)
    (h : (helm.actioner ns).uninstallRun o name k₀ = (.ok resp, k₁))
    (rels : List Release) (hl : (helm.actioner ns).listRun listOptions k₁ = .ok rels)
    (v : Release) (hv : v ∈ rels) : v.Name ≠ name := by
  simp only [helm.actioner, HelmActioner.uninstallRun, HelmActioner.listRun, Action.Run] at h hl
  by_cases hc : k₀.contains name = true
  · simp only [hc, if_true, Prod.mk.injEq, Except.ok.injEq] at h
    simp only [Except.ok.injEq] at hl
    subst hl
    rw [← h.2] at hv
    simp only [List.mem_map, List.mem_filter] at hv
    obtain ⟨n, ⟨⟨_, hn⟩, _⟩, hnv⟩ := hv
    rw [← hnv]
    simpa [helm.storedRelease] using hn
  · rw [if_neg hc] at h
    simp at h

/-- C5: for a name `r` that `ListReleases` returns, when the backend uninstall of `r`
succeeds and `DeleteSubfolder` of the chart directory fails with `e`, `UninstallRelease(r)`
returns the error `failed to delete chart files: e` (and so no result); the calls are the
listing, one uninstall of `r` and the deletion, nothing after it, and the cluster is left
in the state the uninstall produced (not undone, not retried); and with a backend whose
uninstall removes the name from what the list action returns, a following `ListReleases`
does not contain `r`. -/
theorem UninstallRelease_cleanup_failed (hc : RealClient κ δ) (w : World κ δ)
    (a : HelmActioner κ) (fs : FileSystem δ) (r : String) (names : List String)
    (resp : UninstallReleaseResponse) (k : κ) (e : String) (d : δ)
    (hA : hc.Actioner = some a) (hF : hc.Filesystem = some fs)
    (hlist : (ListReleases hc w).result = .ok names) (hmem : r ∈ names)
    (hun : a.uninstallRun uninstallOptions r w.cluster = (.ok resp, k))
    (hdel : fs.DeleteSubfolder (filepath.Join hc.Default.OutputDir r) w.disk = (some e, d)) :
    (UninstallRelease hc r w).result
        = .error (.error ("failed to delete chart files: " ++ e)) ∧
      (UninstallRelease hc r w).calls
        = [.NewList, .ListRun (listFields hc), .NewUninstall, .UninstallRun (a.NewUninstall.fields uninstallOptions) r,
            .DeleteSubfolder (filepath.Join hc.Default.OutputDir r)] ∧
      (UninstallRelease hc r w).world = { cluster := k, disk := d } ∧
      ((∀ o name k₀ resp₁ k₁, a.uninstallRun o name k₀ = (.ok resp₁, k₁) →
          ∀ rels, a.listRun listOptions k₁ = .ok rels → ∀ v ∈ rels, v.Name ≠ name) →
        ∀ names₁, (ListReleases hc (UninstallRelease hc r w).world).result = .ok names₁ →
          r ∉ names₁) := by
  have hw := ListReleases_world hc w
  have hcalls := ListReleases_calls_of_ok hc w names hlist
  have hout : UninstallRelease hc r w =
      { result := .error (.error ("failed to delete chart files: " ++ e)),
        world := { cluster := k, disk := d },
        calls := [.NewList, .ListRun (listFields hc), .NewUninstall,
          .UninstallRun (a.NewUninstall.fields uninstallOptions) r,
          .DeleteSubfolder (filepath.Join hc.Default.OutputDir r)] } := by
    simp [UninstallRelease, hlist, hmem, hw, hcalls, hA, hF, hun, hdel]
  rw [hout]
  refine ⟨rfl, rfl, rfl, ?_⟩
  intro hremoves names₁ hlist₁ hr
  obtain ⟨rels, hrels, hnames⟩ :=
    ListReleases_ok_of_listRun hc { cluster := k, disk := d } a hA names₁ hlist₁
  rw [hnames, List.mem_map] at hr
  obtain ⟨v, hv, hvr⟩ := hr
  exact hremoves uninstallOptions r w.cluster resp k hun rels hrels v hv hvr

theorem UninstallRelease_cleanup_failed_witness :
    (UninstallRelease (wiredClient memfs.readOnlyFilesystem) "test-a" deployedWorld).result
        = .error (.error ("failed to delete chart files: " ++
            "unlinkat charts/test-a: permission denied")) ∧
      (UninstallRelease (wiredClient memfs.readOnlyFilesystem) "test-a" deployedWorld).calls
        = [.NewList, .ListRun (some listOptions), .NewUninstall,
            .UninstallRun (some uninstallOptions) "test-a",
            .DeleteSubfolder (filepath.Join (wiredClient memfs.readOnlyFilesystem).Default.OutputDir
              "test-a")] ∧
      (UninstallRelease (wiredClient memfs.readOnlyFilesystem) "test-a" deployedWorld).world
        = { cluster := [], disk := deployedWorld.disk } ∧
      (ListReleases (wiredClient memfs.readOnlyFilesystem)
          (UninstallRelease (wiredClient memfs.readOnlyFilesystem) "test-a"
            deployedWorld).world).result = .ok [] ∧
      ∀ names₁, (ListReleases (wiredClient memfs.readOnlyFilesystem)
          (UninstallRelease (wiredClient memfs.readOnlyFilesystem) "test-a"
            deployedWorld).world).result = .ok names₁ → "test-a" ∉ names₁ :=
  have h := UninstallRelease_cleanup_failed (wiredClient memfs.readOnlyFilesystem)
    deployedWorld (helm.actioner defaults.NameSpace) memfs.readOnlyFilesystem "test-a"
    ["test-a"] { Release := helm.storedRelease defaults.NameSpace "test-a", Info := "" } []
    "unlinkat charts/test-a: permission denied" deployedWorld.disk rfl rfl rfl (by decide)
    rfl rfl
  ⟨h.1, h.2.1, h.2.2.1, rfl, h.2.2.2 (helm_uninstall_removes defaults.NameSpace)⟩

/-- C6 (as the code behaves): the namespace holds `latest-app` and `test-a`; the list
action, given `Filter = defaults.EnvPrefix`, keeps every name in which `test-` occurs, and
`ListReleases` returns `latest-app` although it does not start with the prefix.  With a
list action that is not Helm's type no filter applies at all and `ListReleases` hands on
every name. -/
theorem ListReleases_returns_unprefixed_name :
    (ListReleases (wiredClient memfs.readOnlyFilesystem) sharedWorld).result
        = .ok ["latest-app", "test-a"] ∧
      defaults.EnvPrefix.toList.isPrefixOf "latest-app".toList = false ∧
      (ListReleases
          { wiredClient memfs.readOnlyFilesystem with Actioner := some mockListActioner }
          { cluster := ["other", "test-a"], disk := [] }).result
        = .ok ["other", "test-a"] ∧
      defaults.EnvPrefix.toList.isPrefixOf "other".toList = false := by
  refine ⟨?_, ?_, ?_, ?_⟩ <;> rfl

/-- C7 (as the code behaves): `latest-app` does not start with the prefix, yet
`UninstallRelease("latest-app")` finds it in the list, runs the backend uninstall for it
and deletes `charts/latest-app`; the release is gone from the cluster afterwards. -/
theorem UninstallRelease_removes_unprefixed_release :
    defaults.EnvPrefix.toList.isPrefixOf "latest-app".toList = false ∧
      (UninstallRelease (wiredClient { DeleteSubfolder := utils.DeleteSubfolder })
          "latest-app" sharedWorld).calls
        = [.NewList, .ListRun (some listOptions), .NewUninstall,
            .UninstallRun (some uninstallOptions) "latest-app",
            .DeleteSubfolder "charts/latest-app"] ∧
      (UninstallRelease (wiredClient { DeleteSubfolder := utils.DeleteSubfolder })
          "latest-app" sharedWorld).world.cluster = ["test-a"] ∧
      (UninstallRelease (wiredClient { DeleteSubfolder := utils.DeleteSubfolder })
          "latest-app" sharedWorld).result
        = .ok { Release := helm.storedRelease defaults.NameSpace "latest-app", Info := "" } := by
  refine ⟨?_, ?_, ?_, ?_⟩ <;> rfl

theorem CreateHelmChartFromSource_short_circuit (os : Host δ) (hc : RealClient κ δ)
    (m : Metadata) (w : World κ δ)
    (hsrc : os.Stat hc.Default.SourceDir w.disk ≠ .notExist)
    (hout : os.Stat hc.Default.OutputDir w.disk ≠ .notExist)
    (hstat : os.Stat (hc.Default.OutputDir ++ "/" ++ (defaults.EnvPrefix ++ m.Name)) w.disk
      = .ok) :
    CreateHelmChartFromSource os hc m w =
      { result := (hc.Default.OutputDir ++ "/" ++ (defaults.EnvPrefix ++ m.Name), none),
        world := w, calls := statCalls hc m } := by
  unfold CreateHelmChartFromSource statCalls
  cases h1 : os.Stat hc.Default.SourceDir w.disk <;>
    cases h2 : os.Stat hc.Default.OutputDir w.disk <;> simp_all

theorem CreateHelmChartFromSource_success (os : Host δ) (hc : RealClient κ δ)
    (m : Metadata) (w : World κ δ) (p : String)
    (h : (CreateHelmChartFromSource os hc m w).result = (p, none)) :
    p = hc.Default.OutputDir ++ "/" ++ (defaults.EnvPrefix ++ m.Name) ∧
      os.Stat hc.Default.SourceDir w.disk ≠ .notExist ∧
      os.Stat hc.Default.OutputDir w.disk ≠ .notExist ∧
      ((os.Stat (hc.Default.OutputDir ++ "/" ++ (defaults.EnvPrefix ++ m.Name)) w.disk = .ok ∧
          (CreateHelmChartFromSource os hc m w).world = w) ∨
        ∃ d, os.CreateFrom { m with Name := defaults.EnvPrefix ++ m.Name }
            hc.Default.OutputDir hc.Default.SourceDir w.disk = (none, d) ∧
          (CreateHelmChartFromSource os hc m w).world = { cluster := w.cluster, disk := d }) := by
  unfold CreateHelmChartFromSource at h ⊢
  cases h1 : os.Stat hc.Default.SourceDir w.disk <;>
    cases h2 : os.Stat hc.Default.OutputDir w.disk <;>
    cases h3 : os.Stat (hc.Default.OutputDir ++ "/" ++ (defaults.EnvPrefix ++ m.Name)) w.disk <;>
    rcases h4 : os.CreateFrom { m with Name := defaults.EnvPrefix ++ m.Name }
      hc.Default.OutputDir hc.Default.SourceDir w.disk with ⟨_ | e, d⟩ <;>
    simp_all

theorem memfs_CreateFrom_creates (m : Metadata) (dest src : String) (hdest : dest ≠ "")
    (d d₁ : memfs.Disk) (h : memfs.host.CreateFrom m dest src d = (none, d₁)) :
    memfs.host.Stat (dest ++ "/" ++ m.Name) d₁ = .ok := by
  simp only [memfs.host, memfs.CreateFrom] at h
  cases hl : memfs.Load src d with
  | error e => simp [hl] at h
  | ok c =>
    simp only [hl, Prod.mk.injEq, true_and] at h
    have hj : filepath.Join dest m.Name = filepath.Clean (dest ++ "/" ++ m.Name) := by
      simp [filepath.Join, hdest]
    simp [memfs.host, memfs.Stat, ← h, hj]

/-- C8: when the source and output directories exist (their `os.Stat` does not report
not-exist): whenever `OutputDir/(EnvPrefix+m.Name)` already exists, the call returns that
path with a nil error, makes only its three `os.Stat` calls (no `chartutil.CreateFrom`) and
leaves the world as it was; and, `chartutil.CreateFrom` leaving the chart directory in
place when it succeeds, two successive successful calls return the same path and the
second makes only the three `os.Stat` calls and leaves the world as the first left it. -/
theorem CreateHelmChartFromSource_idempotent (os : Host δ) (hc : RealClient κ δ)
    (m : Metadata) (w : World κ δ)
    (hsrc : os.Stat hc.Default.SourceDir w.disk ≠ .notExist)
    (hout : os.Stat hc.Default.OutputDir w.disk ≠ .notExist) :
    (os.Stat (hc.Default.OutputDir ++ "/" ++ (defaults.EnvPrefix ++ m.Name)) w.disk = .ok →
        (CreateHelmChartFromSource os hc m w).result
            = (hc.Default.OutputDir ++ "/" ++ (defaults.EnvPrefix ++ m.Name), none) ∧
          (CreateHelmChartFromSource os hc m w).calls = statCalls hc m ∧
          (CreateHelmChartFromSource os hc m w).world = w) ∧
      ((∀ d d₁, os.CreateFrom { m with Name := defaults.EnvPrefix ++ m.Name }
            hc.Default.OutputDir hc.Default.SourceDir d = (none, d₁) →
          os.Stat (hc.Default.OutputDir ++ "/" ++ (defaults.EnvPrefix ++ m.Name)) d₁ = .ok) →
        ∀ p₁ p₂, (CreateHelmChartFromSource os hc m w).result = (p₁, none) →
          (CreateHelmChartFromSource os hc m
              (CreateHelmChartFromSource os hc m w).world).result = (p₂, none) →
          p₁ = p₂ ∧
            p₂ = hc.Default.OutputDir ++ "/" ++ (defaults.EnvPrefix ++ m.Name) ∧
            (CreateHelmChartFromSource os hc m
                (CreateHelmChartFromSource os hc m w).world).calls = statCalls hc m ∧
            (CreateHelmChartFromSource os hc m
                (CreateHelmChartFromSource os hc m w).world).world
              = (CreateHelmChartFromSource os hc m w).world) := by
  constructor
  · intro hstat
    rw [CreateHelmChartFromSource_short_circuit os hc m w hsrc hout hstat]
    exact ⟨rfl, rfl, rfl⟩
  · intro hcreate p₁ p₂ h₁ h₂
    obtain ⟨hp₁, _, _, hfirst⟩ := CreateHelmChartFromSource_success os hc m w p₁ h₁
    obtain ⟨hp₂, hsrc₂, hout₂, _⟩ := CreateHelmChartFromSource_success os hc m _ p₂ h₂
    have hstat : os.Stat (hc.Default.OutputDir ++ "/" ++ (defaults.EnvPrefix ++ m.Name))
        (CreateHelmChartFromSource os hc m w).world.disk = .ok := by
      rcases hfirst with ⟨hs, hw⟩ | ⟨d, hd, hw⟩
      · rw [hw]; exact hs
      · rw [hw]; exact hcreate w.disk d hd
    rw [CreateHelmChartFromSource_short_circuit os hc m _ hsrc₂ hout₂ hstat]
    exact ⟨hp₁.trans hp₂.symm, hp₂, rfl, rfl⟩

theorem CreateHelmChartFromSource_idempotent_witness :
    (CreateHelmChartFromSource memfs.host (wiredClient memfs.readOnlyFilesystem)
          { Name := "b", Version := "0.2.0", Description := "d" } freshWorld).result
        = ("charts/test-b", none) ∧
      (CreateHelmChartFromSource memfs.host (wiredClient memfs.readOnlyFilesystem)
          { Name := "b", Version := "0.2.0", Description := "d" } freshWorld).calls
        = [.Stat "source/helm/mariadb", .Stat "charts", .Stat "charts/test-b",
            .CreateFrom { Name := "test-b", Version := "0.2.0", Description := "d" }
              "charts" "source/helm/mariadb"] ∧
      "charts/test-b" = "charts/test-b" ∧
      "charts/test-b" = (wiredClient memfs.readOnlyFilesystem).Default.OutputDir ++ "/" ++
        (defaults.EnvPrefix ++ "b") ∧
      (CreateHelmChartFromSource memfs.host (wiredClient memfs.readOnlyFilesystem)
          { Name := "b", Version := "0.2.0", Description := "d" }
          (CreateHelmChartFromSource memfs.host (wiredClient memfs.readOnlyFilesystem)
            { Name := "b", Version := "0.2.0", Description := "d" } freshWorld).world).calls
        = statCalls (wiredClient memfs.readOnlyFilesystem)
            { Name := "b", Version := "0.2.0", Description := "d" } ∧
      (CreateHelmChartFromSource memfs.host (wiredClient memfs.readOnlyFilesystem)
          { Name := "b", Version := "0.2.0", Description := "d" }
          (CreateHelmChartFromSource memfs.host (wiredClient memfs.readOnlyFilesystem)
            { Name := "b", Version := "0.2.0", Description := "d" } freshWorld).world).world
        = (CreateHelmChartFromSource memfs.host (wiredClient memfs.readOnlyFilesystem)
            { Name := "b", Version := "0.2.0", Description := "d" } freshWorld).world :=
  ⟨rfl, rfl,
    (CreateHelmChartFromSource_idempotent memfs.host (wiredClient memfs.readOnlyFilesystem)
      { Name := "b", Version := "0.2.0", Description := "d" } freshWorld
      (by decide) (by decide)).2
      (fun d d₁ h => memfs_CreateFrom_creates _ _ _ (by decide) d d₁ h)
      "charts/test-b" "charts/test-b" rfl rfl⟩

/-- C9: if `os.Stat` reports that the configured source directory does not exist,
`CreateHelmChartFromSource` returns the empty path with the error
`source chart path does not exist: <SourceDir>`, makes that one `os.Stat` call only (no
`chartutil.CreateFrom`) and leaves the world, the output directory included, as it was. -/
theorem CreateHelmChartFromSource_source_missing (os : Host δ) (hc : RealClient κ δ)
    (m : Metadata) (w : World κ δ)
    (hsrc : os.Stat hc.Default.SourceDir w.disk = .notExist) :
    (CreateHelmChartFromSource os hc m w).result
        = ("", some ("source chart path does not exist: " ++ hc.Default.SourceDir)) ∧
      (CreateHelmChartFromSource os hc m w).calls = [.Stat hc.Default.SourceDir] ∧
      (CreateHelmChartFromSource os hc m w).world = w := by
  unfold CreateHelmChartFromSource
  simp [hsrc]

theorem CreateHelmChartFromSource_source_missing_witness :
    (CreateHelmChartFromSource memfs.host (wiredClient memfs.readOnlyFilesystem)
          { Name := "newchart", Version := "0.2.0", Description := "d" } deployedWorld).result
        = ("", some ("source chart path does not exist: " ++ "source/helm/mariadb")) ∧
      (CreateHelmChartFromSource memfs.host (wiredClient memfs.readOnlyFilesystem)
          { Name := "newchart", Version := "0.2.0", Description := "d" } deployedWorld).calls
        = [.Stat "source/helm/mariadb"] ∧
      (CreateHelmChartFromSource memfs.host (wiredClient memfs.readOnlyFilesystem)
          { Name := "newchart", Version := "0.2.0", Description := "d" } deployedWorld).world
        = deployedWorld :=
  CreateHelmChartFromSource_source_missing memfs.host (wiredClient memfs.readOnlyFilesystem)
    { Name := "newchart", Version := "0.2.0", Description := "d" } deployedWorld (by decide)

/-- C10: if the source directory exists (its `os.Stat` does not report not-exist) and
`os.Stat` reports that the configured output directory does not exist,
`CreateHelmChartFromSource` returns the empty path with the error
`output directory does not exist: <OutputDir>`, makes the two `os.Stat` calls only (no
`chartutil.CreateFrom`) and leaves the world as it was. -/
theorem CreateHelmChartFromSource_output_missing (os : Host δ) (hc : RealClient κ δ)
    (m : Metadata) (w : World κ δ)
    (hsrc : os.Stat hc.Default.SourceDir w.disk ≠ .notExist)
    (hout : os.Stat hc.Default.OutputDir w.disk = .notExist) :
    (CreateHelmChartFromSource os hc m w).result
        = ("", some ("output directory does not exist: " ++ hc.Default.OutputDir)) ∧
      (CreateHelmChartFromSource os hc m w).calls
        = [.Stat hc.Default.SourceDir, .Stat hc.Default.OutputDir] ∧
      (CreateHelmChartFromSource os hc m w).world = w := by
  unfold CreateHelmChartFromSource
  cases h1 : os.Stat hc.Default.SourceDir w.disk <;> simp_all

theorem CreateHelmChartFromSource_output_missing_witness :
    (CreateHelmChartFromSource memfs.host (wiredClient memfs.readOnlyFilesystem)
          { Name := "newchart", Version := "0.2.0", Description := "d" }
          sourceOnlyWorld).result
        = ("", some ("output directory does not exist: " ++ "charts")) ∧
      (CreateHelmChartFromSource memfs.host (wiredClient memfs.readOnlyFilesystem)
          { Name := "newchart", Version := "0.2.0", Description := "d" }
          sourceOnlyWorld).calls
        = [.Stat "source/helm/mariadb", .Stat "charts"] ∧
      (CreateHelmChartFromSource memfs.host (wiredClient memfs.readOnlyFilesystem)
          { Name := "newchart", Version := "0.2.0", Description := "d" }
          sourceOnlyWorld).world
        = sourceOnlyWorld :=
  CreateHelmChartFromSource_output_missing memfs.host (wiredClient memfs.readOnlyFilesystem)
    { Name := "newchart", Version := "0.2.0", Description := "d" } sourceOnlyWorld
    (by decide) (by decide)

/-- C17: for every list of releases the list action returns, `ListReleases` returns the
names of those releases, one per release and in the same order, each name as the backend
gave it; the world is untouched. -/
theorem ListReleases_names (hc : RealClient κ δ) (w : World κ δ) (a : HelmActioner κ)
    (rels : List Release) (hA : hc.Actioner = some a)
    (hrun : a.listRun listOptions w.cluster = .ok rels) :
    (ListReleases hc w).result = .ok (rels.map fun v => v.Name) ∧
      (rels.map fun v => v.Name).length = rels.length ∧
      (∀ i : Nat, (rels.map fun v => v.Name)[i]? = (rels[i]?).map fun v : Release => v.Name) ∧
      (ListReleases hc w).world = w := by
  refine ⟨?_, List.length_map _ _, fun i => List.getElem?_map _ _ _, ListReleases_world hc w⟩
  simp [ListReleases, hA, hrun]

theorem ListReleases_names_witness :
    (ListReleases (wiredClient memfs.readOnlyFilesystem) sharedWorld).result
        = .ok ([helm.storedRelease defaults.NameSpace "latest-app",
            helm.storedRelease defaults.NameSpace "test-a"].map fun v => v.Name) ∧
      ([helm.storedRelease defaults.NameSpace "latest-app",
            helm.storedRelease defaults.NameSpace "test-a"].map fun v => v.Name)
        = ["latest-app", "test-a"] :=
  ⟨(ListReleases_names (wiredClient memfs.readOnlyFilesystem) sharedWorld
      (helm.actioner defaults.NameSpace)
      [helm.storedRelease defaults.NameSpace "latest-app",
        helm.storedRelease defaults.NameSpace "test-a"] rfl rfl).1, rfl⟩

/-- C18: when the list action fails with `e`, `ListReleases` returns the error
`failed to run list: e` (and so no names), and `InstallRelease`, `UpgradeRelease` and
`UninstallRelease` each return that same error, having made no call besides the listing
(no chart load, no install, upgrade or uninstall, no directory deletion) and leaving the
world as it was. -/
theorem list_failure_propagates (hc : RealClient κ δ) (w : World κ δ) (a : HelmActioner κ)
    (e chartPath r : String) (hA : hc.Actioner = some a)
    (hrun : a.listRun listOptions w.cluster = .error e) :
    (ListReleases hc w).result = .error (.error ("failed to run list: " ++ e)) ∧
      ((InstallRelease hc chartPath r w).result
          = .error (.error ("failed to run list: " ++ e)) ∧
        (InstallRelease hc chartPath r w).calls = [.NewList, .ListRun (listFields hc)] ∧
        (InstallRelease hc chartPath r w).world = w) ∧
      ((UpgradeRelease hc r w).result = .error (.error ("failed to run list: " ++ e)) ∧
        (UpgradeRelease hc r w).calls = [.NewList, .ListRun (listFields hc)] ∧
        (UpgradeRelease hc r w).world = w) ∧
      ((UninstallRelease hc r w).result = .error (.error ("failed to run list: " ++ e)) ∧
        (UninstallRelease hc r w).calls = [.NewList, .ListRun (listFields hc)] ∧
        (UninstallRelease hc r w).world = w) := by
  have hl : ListReleases hc w =
      { result := .error (.error ("failed to run list: " ++ e)), world := w,
        calls := [.NewList, .ListRun (listFields hc)] } := by
    simp [ListReleases, hA, hrun, listFields]
  refine ⟨by rw [hl], ?_, ?_, ?_⟩
  · simp [InstallRelease, hl]
  · simp [UpgradeRelease, hl]
  · simp [UninstallRelease, hl]

theorem list_failure_propagates_witness :
    (ListReleases unreachableClient deployedWorld).result
        = .error (.error ("failed to run list: " ++ "Kubernetes cluster unreachable")) ∧
      ((InstallRelease unreachableClient "charts/test-b" "b" deployedWorld).result
          = .error (.error ("failed to run list: " ++ "Kubernetes cluster unreachable")) ∧
        (InstallRelease unreachableClient "charts/test-b" "b" deployedWorld).calls
          = [.NewList, .ListRun (some listOptions)] ∧
        (InstallRelease unreachableClient "charts/test-b" "b" deployedWorld).world
          = deployedWorld) ∧
      ((UpgradeRelease unreachableClient "test-a" deployedWorld).result
          = .error (.error ("failed to run list: " ++ "Kubernetes cluster unreachable")) ∧
        (UpgradeRelease unreachableClient "test-a" deployedWorld).calls
          = [.NewList, .ListRun (some listOptions)] ∧
        (UpgradeRelease unreachableClient "test-a" deployedWorld).world = deployedWorld) ∧
      ((UninstallRelease unreachableClient "test-a" deployedWorld).result
          = .error (.error ("failed to run list: " ++ "Kubernetes cluster unreachable")) ∧
        (UninstallRelease unreachableClient "test-a" deployedWorld).calls
          = [.NewList, .ListRun (some listOptions)] ∧
        (UninstallRelease unreachableClient "test-a" deployedWorld).world = deployedWorld) :=
  have h := list_failure_propagates unreachableClient deployedWorld unreachableActioner
    "Kubernetes cluster unreachable" "charts/test-b" "b" rfl rfl
  ⟨h.1, h.2.1,
    (list_failure_propagates unreachableClient deployedWorld unreachableActioner
      "Kubernetes cluster unreachable" "charts/test-b" "test-a" rfl rfl).2.2⟩

/-- C19: for a name `r` that `ListReleases` returns (ports set), `UpgradeRelease(r)` loads
the chart from `filepath.Join(OutputDir, r)`; if the load fails it returns
`failed to load chart: e` and runs no upgrade; if it succeeds the upgrade action runs once,
after the load, with the name `r` and the loaded chart, the cluster is left as the upgrade
left it, and the result is the backend's: its release without error when it succeeds, its
error otherwise. -/
theorem UpgradeRelease_listed (hc : RealClient κ δ) (w : World κ δ) (a : HelmActioner κ)
    (cl : ChartLoader δ) (r : String) (names : List String)
    (hA : hc.Actioner = some a) (hL : hc.ChartLoader = some cl)
    (hlist : (ListReleases hc w).result = .ok names) (hmem : r ∈ names) :
    (∀ e, cl.Load (filepath.Join hc.Default.OutputDir r) w.disk = .error e →
        (UpgradeRelease hc r w).result = .error (.error ("failed to load chart: " ++ e)) ∧
          (UpgradeRelease hc r w).calls
            = [.NewList, .ListRun (listFields hc), .NewUpgrade,
                .Load (filepath.Join hc.Default.OutputDir r)] ∧
          (UpgradeRelease hc r w).world = w) ∧
      (∀ chart, cl.Load (filepath.Join hc.Default.OutputDir r) w.disk = .ok chart →
        (UpgradeRelease hc r w).calls
            = [.NewList, .ListRun (listFields hc), .NewUpgrade,
                .Load (filepath.Join hc.Default.OutputDir r),
                .UpgradeRun (a.NewUpgrade.fields (upgradeOptions hc)) r chart] ∧
          (UpgradeRelease hc r w).world
            = { cluster := (a.upgradeRun (upgradeOptions hc) r chart w.cluster).2,
                disk := w.disk } ∧
          (∀ rel, (a.upgradeRun (upgradeOptions hc) r chart w.cluster).1 = .ok rel →
            (UpgradeRelease hc r w).result = .ok rel) ∧
          (∀ e, (a.upgradeRun (upgradeOptions hc) r chart w.cluster).1 = .error e →
            (UpgradeRelease hc r w).result = .error (.error e))) := by
  have hw := ListReleases_world hc w
  have hcalls := ListReleases_calls_of_ok hc w names hlist
  constructor
  · intro e hload
    simp [UpgradeRelease, hlist, hmem, hw, hcalls, hA, hL, hload]
  · intro chart hload
    rcases hu : a.upgradeRun (upgradeOptions hc) r chart w.cluster with ⟨_ | _, k⟩ <;>
      simp [UpgradeRelease, hlist, hmem, hw, hcalls, hA, hL, hload, hu]

theorem UpgradeRelease_listed_witness :
    (UpgradeRelease (wiredClient memfs.readOnlyFilesystem) "test-a" deployedWorld).calls
        = [.NewList, .ListRun (some listOptions), .NewUpgrade,
            .Load (filepath.Join (wiredClient memfs.readOnlyFilesystem).Default.OutputDir
              "test-a"),
            .UpgradeRun (some (upgradeOptions (wiredClient memfs.readOnlyFilesystem))) "test-a"
              { Metadata := { Name := "test-a", Version := "0.1.0", Description := "d" } }] ∧
      (UpgradeRelease (wiredClient memfs.readOnlyFilesystem) "test-a" deployedWorld).result
        = .ok (helm.storedRelease defaults.NameSpace "test-a") :=
  have h := (UpgradeRelease_listed (wiredClient memfs.readOnlyFilesystem) deployedWorld
    (helm.actioner defaults.NameSpace) memfs.loader "test-a" ["test-a"] rfl rfl rfl
    (by decide)).2
    { Metadata := { Name := "test-a", Version := "0.1.0", Description := "d" } } rfl
  ⟨h.1, h.2.2.1 (helm.storedRelease defaults.NameSpace "test-a") rfl⟩

/-- C20: for a name `r` that `ListReleases` returns, `UninstallRelease(r)` runs the backend
uninstall with `r` first; if that fails it returns the backend's error and
`DeleteSubfolder` is not called (the disk is as it was); if it succeeds (file-system port
set) `DeleteSubfolder(filepath.Join(OutputDir, r))` is called once, after the uninstall,
and when the deletion succeeds too the result is the backend's response without error. -/
theorem UninstallRelease_listed (hc : RealClient κ δ) (w : World κ δ) (a : HelmActioner κ)
    (r : String) (names : List String) (hA : hc.Actioner = some a)
    (hlist : (ListReleases hc w).result = .ok names) (hmem : r ∈ names) :
    (∀ e k, a.uninstallRun uninstallOptions r w.cluster = (.error e, k) →
        (UninstallRelease hc r w).result = .error (.error e) ∧
          (UninstallRelease hc r w).calls
            = [.NewList, .ListRun (listFields hc), .NewUninstall,
                .UninstallRun (a.NewUninstall.fields uninstallOptions) r] ∧
          (UninstallRelease hc r w).world = { cluster := k, disk := w.disk }) ∧
      (∀ resp k fs, a.uninstallRun uninstallOptions r w.cluster = (.ok resp, k) →
        hc.Filesystem = some fs →
        (UninstallRelease hc r w).calls
            = [.NewList, .ListRun (listFields hc), .NewUninstall,
                .UninstallRun (a.NewUninstall.fields uninstallOptions) r,
                .DeleteSubfolder (filepath.Join hc.Default.OutputDir r)] ∧
          (UninstallRelease hc r w).world
            = { cluster := k,
                disk := (fs.DeleteSubfolder (filepath.Join hc.Default.OutputDir r) w.disk).2 } ∧
          ((fs.DeleteSubfolder (filepath.Join hc.Default.OutputDir r) w.disk).1 = none →
            (UninstallRelease hc r w).result = .ok resp)) := by
  have hw := ListReleases_world hc w
  have hcalls := ListReleases_calls_of_ok hc w names hlist
  constructor
  · intro e k hun
    simp [UninstallRelease, hlist, hmem, hw, hcalls, hA, hun]
  · intro resp k fs hun hF
    rcases hd : fs.DeleteSubfolder (filepath.Join hc.Default.OutputDir r) w.disk
      with ⟨_ | _, d⟩ <;>
      simp [UninstallRelease, hlist, hmem, hw, hcalls, hA, hF, hun, hd]

theorem UninstallRelease_listed_witness :
    (UninstallRelease (wiredClient { DeleteSubfolder := utils.DeleteSubfolder }) "test-a"
          deployedWorld).calls
        = [.NewList, .ListRun (some listOptions), .NewUninstall,
            .UninstallRun (some uninstallOptions) "test-a",
            .DeleteSubfolder (filepath.Join
              (wiredClient { DeleteSubfolder := utils.DeleteSubfolder }).Default.OutputDir
              "test-a")] ∧
      (UninstallRelease (wiredClient { DeleteSubfolder := utils.DeleteSubfolder }) "test-a"
          deployedWorld).result
        = .ok { Release := helm.storedRelease defaults.NameSpace "test-a", Info := "" } ∧
      (UninstallRelease (wiredClient { DeleteSubfolder := utils.DeleteSubfolder }) "test-a"
          deployedWorld).world
        = { cluster := [], disk := [{ path := "charts", chart := none }] } :=
  have h := (UninstallRelease_listed (wiredClient { DeleteSubfolder := utils.DeleteSubfolder })
    deployedWorld (helm.actioner defaults.NameSpace) "test-a" ["test-a"] rfl rfl
    (by decide)).2
    { Release := helm.storedRelease defaults.NameSpace "test-a", Info := "" } []
    { DeleteSubfolder := utils.DeleteSubfolder } rfl rfl
  ⟨h.1, h.2.2 rfl, rfl⟩

theorem memfs_CreateFrom_saves (m : Metadata) (dest src : String) (hdest : dest ≠ "")
    (d d₁ : memfs.Disk) (h : memfs.host.CreateFrom m dest src d = (none, d₁)) :
    memfs.loader.Load (dest ++ "/" ++ m.Name) d₁ = .ok { Metadata := m } := by
  simp only [memfs.host, memfs.CreateFrom] at h
  cases hl : memfs.Load src d with
  | error e => simp [hl] at h
  | ok c =>
    simp only [hl, Prod.mk.injEq, true_and] at h
    have hj : filepath.Join dest m.Name = filepath.Clean (dest ++ "/" ++ m.Name) := by
      simp [filepath.Join, hdest]
    have hnone : List.find? (fun e : memfs.Dir => e.path == filepath.Clean (dest ++ "/" ++ m.Name))
        (d.filter fun e => e.path != filepath.Clean (dest ++ "/" ++ m.Name)) = none := by
      rw [List.find?_eq_none]
      intro e he
      simp only [List.mem_filter] at he
      simpa using he.2
    simp [memfs.loader, memfs.Load, ← h, hj, List.find?_append, hnone]

/-- C11: for metadata with name `n`, version `v` and description `d`, when the source and
output directories exist, `OutputDir/(EnvPrefix+n)` does not and `chartutil.CreateFrom`
succeeds, `CreateHelmChartFromSource` returns the path `OutputDir + "/" + EnvPrefix + n`
with a nil error, having called `chartutil.CreateFrom` once, after the three `os.Stat`
calls, with the metadata (`EnvPrefix+n`, `v`, `d`), the output directory as destination
and the source directory as template; and, `chartutil.CreateFrom` saving under
`OutputDir/(EnvPrefix+n)` a chart that loads with the metadata it was given, the chart at
the returned path has name `EnvPrefix+n`, version `v` and description `d`. -/
theorem CreateHelmChartFromSource_creates (os : Host δ) (hc : RealClient κ δ)
    (n v d : String) (w : World κ δ) (d₁ : δ)
    (hsrc : os.Stat hc.Default.SourceDir w.disk ≠ .notExist)
    (hout : os.Stat hc.Default.OutputDir w.disk ≠ .notExist)
    (hnew : os.Stat (hc.Default.OutputDir ++ "/" ++ (defaults.EnvPrefix ++ n)) w.disk ≠ .ok)
    (hcopy : os.CreateFrom { Name := defaults.EnvPrefix ++ n, Version := v, Description := d }
      hc.Default.OutputDir hc.Default.SourceDir w.disk = (none, d₁)) :
    (CreateHelmChartFromSource os hc { Name := n, Version := v, Description := d } w).result
        = (hc.Default.OutputDir ++ "/" ++ defaults.EnvPrefix ++ n, none) ∧
      (CreateHelmChartFromSource os hc { Name := n, Version := v, Description := d } w).calls
        = statCalls hc { Name := n, Version := v, Description := d } ++
          [.CreateFrom { Name := defaults.EnvPrefix ++ n, Version := v, Description := d }
            hc.Default.OutputDir hc.Default.SourceDir] ∧
      (CreateHelmChartFromSource os hc { Name := n, Version := v, Description := d } w).world
        = { cluster := w.cluster, disk := d₁ } ∧
      ∀ cl : ChartLoader δ,
        (∀ d₀ d₂ : δ,
          os.CreateFrom { Name := defaults.EnvPrefix ++ n, Version := v, Description := d }
              hc.Default.OutputDir hc.Default.SourceDir d₀ = (none, d₂) →
            ∃ c, cl.Load (hc.Default.OutputDir ++ "/" ++ (defaults.EnvPrefix ++ n)) d₂ = .ok c ∧
              c.Metadata
                = { Name := defaults.EnvPrefix ++ n, Version := v, Description := d }) →
        ∃ c, cl.Load
            (CreateHelmChartFromSource os hc
              { Name := n, Version := v, Description := d } w).result.1
            (CreateHelmChartFromSource os hc
              { Name := n, Version := v, Description := d } w).world.disk = .ok c ∧
          c.Metadata.Name = defaults.EnvPrefix ++ n ∧ c.Metadata.Version = v ∧
          c.Metadata.Description = d := by
  have hrun : CreateHelmChartFromSource os hc { Name := n, Version := v, Description := d } w =
      { result := (hc.Default.OutputDir ++ "/" ++ (defaults.EnvPrefix ++ n), none),
        world := { cluster := w.cluster, disk := d₁ },
        calls := statCalls hc { Name := n, Version := v, Description := d } ++
          [.CreateFrom { Name := defaults.EnvPrefix ++ n, Version := v, Description := d }
            hc.Default.OutputDir hc.Default.SourceDir] } := by
    unfold CreateHelmChartFromSource statCalls
    cases h1 : os.Stat hc.Default.SourceDir w.disk <;>
      cases h2 : os.Stat hc.Default.OutputDir w.disk <;>
      cases h3 : os.Stat (hc.Default.OutputDir ++ "/" ++ (defaults.EnvPrefix ++ n)) w.disk <;>
      simp_all
  rw [hrun]
  refine ⟨by simp [String.append_assoc], rfl, rfl, ?_⟩
  intro cl hsaves
  obtain ⟨c, hc₁, hc₂⟩ := hsaves _ _ hcopy
  exact ⟨c, hc₁, by rw [hc₂], by rw [hc₂], by rw [hc₂]⟩

theorem CreateHelmChartFromSource_creates_witness :
    (CreateHelmChartFromSource memfs.host (wiredClient memfs.readOnlyFilesystem)
          { Name := "chart1", Version := "0.2.0", Description := "d" } freshWorld).result
        = ((wiredClient memfs.readOnlyFilesystem).Default.OutputDir ++ "/" ++
            defaults.EnvPrefix ++ "chart1", none) ∧
      (wiredClient memfs.readOnlyFilesystem).Default.OutputDir ++ "/" ++
          defaults.EnvPrefix ++ "chart1" = "charts/test-chart1" ∧
      ∃ c, memfs.loader.Load
          (CreateHelmChartFromSource memfs.host (wiredClient memfs.readOnlyFilesystem)
            { Name := "chart1", Version := "0.2.0", Description := "d" } freshWorld).result.1
          (CreateHelmChartFromSource memfs.host (wiredClient memfs.readOnlyFilesystem)
            { Name := "chart1", Version := "0.2.0", Description := "d" }
            freshWorld).world.disk = .ok c ∧
        c.Metadata.Name = defaults.EnvPrefix ++ "chart1" ∧ c.Metadata.Version = "0.2.0" ∧
        c.Metadata.Description = "d" :=
  have h := CreateHelmChartFromSource_creates memfs.host
    (wiredClient memfs.readOnlyFilesystem) "chart1" "0.2.0" "d" freshWorld
    (freshWorld.disk ++
      [({ path := "charts/test-chart1",
          chart := some { Name := "test-chart1", Version := "0.2.0", Description := "d" } } :
        memfs.Dir)])
    (by decide) (by decide) (by decide) rfl
  ⟨h.1, by decide,
    h.2.2.2 memfs.loader fun d₀ d₂ hm =>
      ⟨_, memfs_CreateFrom_saves _ _ _ (by decide) d₀ d₂ hm, rfl⟩⟩

theorem Values_get_set_self (m : chartutil.Values) (k : String) (v : chartutil.Node) :
    (m.set k v).get k = some v := by
  simp [chartutil.Values.set, chartutil.Values.get, List.lookup]

/-- C13: if reading the values document at `OutputDir/r/values.yaml` fails with `e` (the
file is absent or malformed), `UpdateValuesFile(r, N)` returns
`failed to read values file: e`, makes the one read call only (no `os.WriteFile`) and
leaves the world, the disk included, as it was. -/
theorem UpdateValuesFile_read_failed (vh : ValuesHost δ) (hc : RealClient κ δ) (r : String)
    (N : Int) (w : World κ δ) (e : String)
    (hread : vh.ReadValuesFile (hc.Default.OutputDir ++ "/" ++ r ++ "/values.yaml") w.disk
      = .error e) :
    (UpdateValuesFile vh hc r N w).result = some ("failed to read values file: " ++ e) ∧
      (UpdateValuesFile vh hc r N w).calls
        = [.ReadValuesFile (hc.Default.OutputDir ++ "/" ++ r ++ "/values.yaml")] ∧
      (UpdateValuesFile vh hc r N w).world = w := by
  simp [UpdateValuesFile, hread]

theorem UpdateValuesFile_read_failed_witness :
    ((UpdateValuesFile memfs.valuesHost (wiredClient memfs.readOnlyFilesystem) "test-a" 1
          deployedWorld).result
        = some ("failed to read values file: " ++
            "open charts/test-a/values.yaml: no such file or directory") ∧
      (UpdateValuesFile memfs.valuesHost (wiredClient memfs.readOnlyFilesystem) "test-a" 1
          deployedWorld).calls
        = [.ReadValuesFile ((wiredClient memfs.readOnlyFilesystem).Default.OutputDir ++ "/" ++
            "test-a" ++ "/values.yaml")] ∧
      (UpdateValuesFile memfs.valuesHost (wiredClient memfs.readOnlyFilesystem) "test-a" 1
          deployedWorld).world = deployedWorld) ∧
      ((UpdateValuesFile memfs.valuesHost (wiredClient memfs.readOnlyFilesystem) "test-a" 1
          malformedWorld).result
        = some ("failed to read values file: " ++
            ("error unmarshaling JSON: while decoding JSON: json: cannot unmarshal array " ++
              "into Go value of type chartutil.Values")) ∧
      (UpdateValuesFile memfs.valuesHost (wiredClient memfs.readOnlyFilesystem) "test-a" 1
          malformedWorld).calls
        = [.ReadValuesFile ((wiredClient memfs.readOnlyFilesystem).Default.OutputDir ++ "/" ++
            "test-a" ++ "/values.yaml")] ∧
      (UpdateValuesFile memfs.valuesHost (wiredClient memfs.readOnlyFilesystem) "test-a" 1
          malformedWorld).world = malformedWorld) :=
  ⟨UpdateValuesFile_read_failed memfs.valuesHost (wiredClient memfs.readOnlyFilesystem)
      "test-a" 1 deployedWorld "open charts/test-a/values.yaml: no such file or directory" rfl,
    UpdateValuesFile_read_failed memfs.valuesHost (wiredClient memfs.readOnlyFilesystem)
      "test-a" 1 malformedWorld
      ("error unmarshaling JSON: while decoding JSON: json: cannot unmarshal array " ++
        "into Go value of type chartutil.Values") rfl⟩

end helmutils

namespace main

open helmutils

/-- C14: for a release whose chart directory exists and a decodable scale request with
action `up` (count 1) or `down` (count 0), the handler patches before it upgrades.  If
reading the values document, marshalling the patched mapping or writing it fails, the
handler replies 500 `Updating values.yaml failed` with that error and makes no list or
upgrade call.  Otherwise it has written to `OutputDir/(EnvPrefix+name)/values.yaml` the
text `yaml.Marshal` gives for the mapping read with `replicas` set to the count (so that,
the text standing for the mapping marshalled, the document on the disk binds `replicas` to
exactly 1, or 0), and only then, on the disk the write left, `UpgradeRelease` runs, its
calls following the write. -/
theorem updateEnvHandler_scale (os : Host δ) (vh : ValuesHost δ) (hc : RealClient κ δ)
    (chartName action : String) (count : Int) (req : Request) (w : World κ δ)
    (hname : chartName ≠ "")
    (hdir : os.Stat (hc.Default.OutputDir ++ "/" ++ (defaults.EnvPrefix ++ chartName)) w.disk
      ≠ .notExist)
    (hreq : req.Action = some action)
    (hcount : action = "up" ∧ count = 1 ∨ action = "down" ∧ count = 0) :
    (∀ e,
        vh.ReadValuesFile (hc.Default.OutputDir ++ "/" ++ (defaults.EnvPrefix ++ chartName) ++
          "/values.yaml") w.disk = .error e →
        updateEnvHandler os vh hc chartName (.ok req) w =
          { result := .reply 500 (.json { Message := "Updating values.yaml failed",
                                          Error := "failed to read values file: " ++ e }),
            world := w,
            calls := [.Stat (hc.Default.OutputDir ++ "/" ++ (defaults.EnvPrefix ++ chartName)),
              .ReadValuesFile (hc.Default.OutputDir ++ "/" ++
                (defaults.EnvPrefix ++ chartName) ++ "/values.yaml")] }) ∧
      (∀ m,
        vh.ReadValuesFile (hc.Default.OutputDir ++ "/" ++ (defaults.EnvPrefix ++ chartName) ++
          "/values.yaml") w.disk = .ok m →
        (∀ e, vh.Marshal (m.set "replicas" (.int count)) = .error e →
          updateEnvHandler os vh hc chartName (.ok req) w =
            { result := .reply 500 (.json { Message := "Updating values.yaml failed",
                                            Error := "failed to marshal values: " ++ e }),
              world := w,
              calls := [.Stat (hc.Default.OutputDir ++ "/" ++
                  (defaults.EnvPrefix ++ chartName)),
                .ReadValuesFile (hc.Default.OutputDir ++ "/" ++
                  (defaults.EnvPrefix ++ chartName) ++ "/values.yaml")] }) ∧
        (∀ data d₁, vh.Marshal (m.set "replicas" (.int count)) = .ok data →
          (∀ e,
            vh.WriteFile (hc.Default.OutputDir ++ "/" ++ (defaults.EnvPrefix ++ chartName) ++
              "/values.yaml") data w.disk = (some e, d₁) →
            updateEnvHandler os vh hc chartName (.ok req) w =
              { result := .reply 500 (.json { Message := "Updating values.yaml failed",
                                              Error := e }),
                world := { cluster := w.cluster, disk := d₁ },
                calls := [.Stat (hc.Default.OutputDir ++ "/" ++
                    (defaults.EnvPrefix ++ chartName)),
                  .ReadValuesFile (hc.Default.OutputDir ++ "/" ++
                    (defaults.EnvPrefix ++ chartName) ++ "/values.yaml"),
                  .WriteFile (hc.Default.OutputDir ++ "/" ++
                    (defaults.EnvPrefix ++ chartName) ++ "/values.yaml") data] }) ∧
          (vh.WriteFile (hc.Default.OutputDir ++ "/" ++ (defaults.EnvPrefix ++ chartName) ++
              "/values.yaml") data w.disk = (none, d₁) →
            updateEnvHandler os vh hc chartName (.ok req) w =
                upgradeAndReply hc req (defaults.EnvPrefix ++ chartName)
                  [.Stat (hc.Default.OutputDir ++ "/" ++ (defaults.EnvPrefix ++ chartName)),
                    .ReadValuesFile (hc.Default.OutputDir ++ "/" ++
                      (defaults.EnvPrefix ++ chartName) ++ "/values.yaml"),
                    .WriteFile (hc.Default.OutputDir ++ "/" ++
                      (defaults.EnvPrefix ++ chartName) ++ "/values.yaml") data]
                  { cluster := w.cluster, disk := d₁ } ∧
              (updateEnvHandler os vh hc chartName (.ok req) w).calls =
                [.Stat (hc.Default.OutputDir ++ "/" ++ (defaults.EnvPrefix ++ chartName)),
                  .ReadValuesFile (hc.Default.OutputDir ++ "/" ++
                    (defaults.EnvPrefix ++ chartName) ++ "/values.yaml"),
                  .WriteFile (hc.Default.OutputDir ++ "/" ++
                    (defaults.EnvPrefix ++ chartName) ++ "/values.yaml") data] ++
                  (UpgradeRelease hc (defaults.EnvPrefix ++ chartName)
                    { cluster := w.cluster, disk := d₁ }).calls ∧
              (updateEnvHandler os vh hc chartName (.ok req) w).world =
                (UpgradeRelease hc (defaults.EnvPrefix ++ chartName)
                  { cluster := w.cluster, disk := d₁ }).world ∧
              ∀ (doc : δ → Option chartutil.Values) (D₁ : chartutil.Values),
                doc d₁ = some D₁ →
                (∀ k, D₁.get k
                  = ((m.set "replicas" (.int count)).get k).map chartutil.written) →
                D₁.get "replicas" = some (.int count)))) := by
  have hrep : replicas action = some count := by
    rcases hcount with ⟨rfl, rfl⟩ | ⟨rfl, rfl⟩ <;> decide
  have hrun : updateEnvHandler os vh hc chartName (.ok req) w =
      match (UpdateValuesFile vh hc (defaults.EnvPrefix ++ chartName) count w).result with
      | some e =>
        ⟨.reply 500 (.json { Message := "Updating values.yaml failed", Error := e }),
          (UpdateValuesFile vh hc (defaults.EnvPrefix ++ chartName) count w).world,
          .Stat (hc.Default.OutputDir ++ "/" ++ (defaults.EnvPrefix ++ chartName)) ::
            (UpdateValuesFile vh hc (defaults.EnvPrefix ++ chartName) count w).calls⟩
      | none =>
        upgradeAndReply hc req (defaults.EnvPrefix ++ chartName)
          (.Stat (hc.Default.OutputDir ++ "/" ++ (defaults.EnvPrefix ++ chartName)) ::
            (UpdateValuesFile vh hc (defaults.EnvPrefix ++ chartName) count w).calls)
          (UpdateValuesFile vh hc (defaults.EnvPrefix ++ chartName) count w).world := by
    unfold updateEnvHandler
    cases hs : os.Stat (hc.Default.OutputDir ++ "/" ++ (defaults.EnvPrefix ++ chartName))
      w.disk <;> simp_all
  refine ⟨?_, ?_⟩
  · intro e he
    rw [hrun]
    simp only [UpdateValuesFile, he]
  · intro m hm
    refine ⟨?_, ?_⟩
    · intro e he
      rw [hrun]
      simp only [UpdateValuesFile, hm, he]
    · intro data d₁ hdata
      refine ⟨?_, ?_⟩
      · intro e hw
        rw [hrun]
        simp only [UpdateValuesFile, hm, hdata, hw]
      · intro hw
        have hout : updateEnvHandler os vh hc chartName (.ok req) w =
            upgradeAndReply hc req (defaults.EnvPrefix ++ chartName)
              [.Stat (hc.Default.OutputDir ++ "/" ++ (defaults.EnvPrefix ++ chartName)),
                .ReadValuesFile (hc.Default.OutputDir ++ "/" ++
                  (defaults.EnvPrefix ++ chartName) ++ "/values.yaml"),
                .WriteFile (hc.Default.OutputDir ++ "/" ++
                  (defaults.EnvPrefix ++ chartName) ++ "/values.yaml") data]
              { cluster := w.cluster, disk := d₁ } := by
          rw [hrun]
          simp only [UpdateValuesFile, hm, hdata, hw]
        refine ⟨hout, ?_, ?_, ?_⟩
        · rw [hout]
          simp only [upgradeAndReply]
          split <;> simp
        · rw [hout]
          simp only [upgradeAndReply]
          split <;> simp
        · intro doc D₁ _ hget
          rw [hget, Values_get_set_self]
          rfl

theorem updateEnvHandler_scale_witness :
    (updateEnvHandler memfs.host memfs.valuesHost (wiredClient memfs.readOnlyFilesystem) "a"
          (.ok { ChartMetadata := { Name := "", Version := "", Description := "" },
                 Action := some "down" }) scalableWorld).calls
        = [.Stat "charts/test-a", .ReadValuesFile "charts/test-a/values.yaml",
            .WriteFile "charts/test-a/values.yaml" "other: value\nreplicas: 0\n",
            .NewList, .ListRun (some listOptions), .NewUpgrade, .Load "charts/test-a",
            .UpgradeRun (some (upgradeOptions (wiredClient memfs.readOnlyFilesystem))) "test-a"
              { Metadata := { Name := "test-a", Version := "0.1.0", Description := "d" } }] ∧
      memfs.Document "charts/test-a/values.yaml" scalableWorld.disk
        = some [("other", .str "value"), ("replicas", .int 1)] ∧
      memfs.Document "charts/test-a/values.yaml"
          (updateEnvHandler memfs.host memfs.valuesHost (wiredClient memfs.readOnlyFilesystem)
            "a" (.ok { ChartMetadata := { Name := "", Version := "", Description := "" },
                       Action := some "down" }) scalableWorld).world.disk
        = some [("other", .str "value"), ("replicas", .int 0)] ∧
      chartutil.Values.get [("other", .str "value"), ("replicas", .int 0)] "replicas"
        = some (.int 0) :=
  have h := ((updateEnvHandler_scale memfs.host memfs.valuesHost
    (wiredClient memfs.readOnlyFilesystem) "a" "down" 0
    { ChartMetadata := { Name := "", Version := "", Description := "" },
      Action := some "down" }
    scalableWorld (by decide) (by decide) rfl (Or.inr ⟨rfl, rfl⟩)).2
    [("other", .str "value"), ("replicas", .float 1)] rfl).2
    "other: value\nreplicas: 0\n"
    [{ path := "charts", chart := none },
      { path := "charts/test-a",
        chart := some { Name := "test-a", Version := "0.1.0", Description := "d" },
        values := some "other: value\nreplicas: 0\n" }] rfl
  have h₁ := h.2 rfl
  ⟨h₁.2.1, rfl, rfl,
    h₁.2.2.2 (memfs.Document "charts/test-a/values.yaml")
      [("other", .str "value"), ("replicas", .int 0)] rfl
      (fun k => by
        by_cases h₂ : k = "replicas"
        · subst h₂
          rfl
        · by_cases h₃ : k = "other"
          · subst h₃
            rfl
          · have e₂ : (k == "replicas") = false := by simpa using h₂
            have e₃ : (k == "other") = false := by simpa using h₃
            simp [chartutil.Values.get, chartutil.Values.set, List.lookup, e₂, e₃])⟩

/-- C15 (as the code behaves): a scale request with action `sideways`, which is neither
`up` nor `down`, for the deployed release `test-a`: the handler skips the patch (no values
call), yet it runs `UpgradeRelease`, the backend upgrade included, and replies 200 with
the success message. -/
theorem updateEnvHandler_unknown_action_upgrades :
    replicas "sideways" = none ∧
      (updateEnvHandler memfs.host memfs.valuesHost (wiredClient memfs.readOnlyFilesystem) "a"
          (.ok { ChartMetadata := { Name := "", Version := "", Description := "" },
                 Action := some "sideways" }) scalableWorld).calls
        = [.Stat "charts/test-a", .NewList, .ListRun (some listOptions), .NewUpgrade,
            .Load "charts/test-a",
            .UpgradeRun (some (upgradeOptions (wiredClient memfs.readOnlyFilesystem))) "test-a"
              { Metadata := { Name := "test-a", Version := "0.1.0", Description := "d" } }] ∧
      (updateEnvHandler memfs.host memfs.valuesHost (wiredClient memfs.readOnlyFilesystem) "a"
          (.ok { ChartMetadata := { Name := "", Version := "", Description := "" },
                 Action := some "sideways" }) scalableWorld).result
        = .reply 200 (.json { Message := "Helm chart  successfully updated charts" }) := by
  refine ⟨?_, ?_, ?_⟩ <;> decide

end main

namespace helmutils

/-- C21: for a name `n` that is not in the result of `ListReleases` (ports set),
`InstallRelease(chartPath, n)` loads the chart from `chartPath` itself; if the load fails
it returns `failed to load chart: e` and runs no install; if it succeeds the install
action runs once, after the load, with that chart, the cluster is left as the install left
it, and the result is the backend's: its release without error when it succeeds, its error
otherwise.  When the install action is the Helm type (`*action.Install`) it runs with the
release name `EnvPrefix+n`, the configured namespace, `Wait = true`, `Timeout = 300`
seconds and `DryRun = false` set on it; another implementation of `InstallAction`, whose
`Run` takes the chart only, runs with nothing set. -/
theorem InstallRelease_unlisted (hc : RealClient κ δ) (w : World κ δ) (a : HelmActioner κ)
    (cl : ChartLoader δ) (chartPath n : String) (names : List String)
    (hA : hc.Actioner = some a) (hL : hc.ChartLoader = some cl)
    (hlist : (ListReleases hc w).result = .ok names) (hmem : n ∉ names) :
    (∀ e, cl.Load chartPath w.disk = .error e →
        (InstallRelease hc chartPath n w).result
            = .error (.error ("failed to load chart: " ++ e)) ∧
          (InstallRelease hc chartPath n w).calls
            = [.NewList, .ListRun (listFields hc), .NewInstall, .Load chartPath] ∧
          (InstallRelease hc chartPath n w).world = w) ∧
      (∀ chart, cl.Load chartPath w.disk = .ok chart →
        (∀ run, a.NewInstall = .helm run →
          (InstallRelease hc chartPath n w).calls
              = [.NewList, .ListRun (listFields hc), .NewInstall, .Load chartPath,
                  .InstallRun
                    (some { ReleaseName := defaults.EnvPrefix ++ n,
                            Namespace := hc.Default.Namespace, Wait := true,
                            Timeout := 300, DryRun := false }) chart] ∧
            (InstallRelease hc chartPath n w).world
              = { cluster :=
                    (run { ReleaseName := defaults.EnvPrefix ++ n,
                           Namespace := hc.Default.Namespace, Wait := true,
                           Timeout := 300, DryRun := false } chart w.cluster).2,
                  disk := w.disk } ∧
            (∀ rel,
              (run { ReleaseName := defaults.EnvPrefix ++ n,
                     Namespace := hc.Default.Namespace, Wait := true,
                     Timeout := 300, DryRun := false } chart w.cluster).1 = .ok rel →
              (InstallRelease hc chartPath n w).result = .ok rel) ∧
            (∀ e,
              (run { ReleaseName := defaults.EnvPrefix ++ n,
                     Namespace := hc.Default.Namespace, Wait := true,
                     Timeout := 300, DryRun := false } chart w.cluster).1 = .error e →
              (InstallRelease hc chartPath n w).result = .error (.error e))) ∧
          (∀ run, a.NewInstall = .other run →
            (InstallRelease hc chartPath n w).calls
                = [.NewList, .ListRun (listFields hc), .NewInstall, .Load chartPath,
                    .InstallRun none chart] ∧
              (InstallRelease hc chartPath n w).world
                = { cluster := (run chart w.cluster).2, disk := w.disk } ∧
              (∀ rel, (run chart w.cluster).1 = .ok rel →
                (InstallRelease hc chartPath n w).result = .ok rel) ∧
              (∀ e, (run chart w.cluster).1 = .error e →
                (InstallRelease hc chartPath n w).result = .error (.error e)))) := by
  have hw := ListReleases_world hc w
  have hcalls := ListReleases_calls_of_ok hc w names hlist
  constructor
  · intro e hload
    simp [InstallRelease, hlist, hmem, hw, hcalls, hA, hL, hload]
  · intro chart hload
    constructor
    · intro run hrun
      have hr : a.installRun (installOptions hc (defaults.EnvPrefix ++ n)) chart w.cluster
          = run { ReleaseName := defaults.EnvPrefix ++ n, Namespace := hc.Default.Namespace,
                  Wait := true, Timeout := 300, DryRun := false } chart w.cluster := by
        simp only [HelmActioner.installRun, hrun, Action.Run, installOptions]
      have hf : a.NewInstall.fields (installOptions hc (defaults.EnvPrefix ++ n))
          = some { ReleaseName := defaults.EnvPrefix ++ n, Namespace := hc.Default.Namespace,
                   Wait := true, Timeout := 300, DryRun := false } := by
        simp only [hrun, Action.fields, installOptions]
      rcases hu : run
          { ReleaseName := defaults.EnvPrefix ++ n, Namespace := hc.Default.Namespace,
            Wait := true, Timeout := 300, DryRun := false } chart w.cluster
        with ⟨_ | _, k⟩ <;>
        simp [InstallRelease, hlist, hmem, hw, hcalls, hA, hL, hload, hr, hf, hu]
    · intro run hrun
      have hr : a.installRun (installOptions hc (defaults.EnvPrefix ++ n)) chart w.cluster
          = run chart w.cluster := by
        simp only [HelmActioner.installRun, hrun, Action.Run]
      have hf : a.NewInstall.fields (installOptions hc (defaults.EnvPrefix ++ n)) = none := by
        simp only [hrun, Action.fields]
      rcases hu : run chart w.cluster with ⟨_ | _, k⟩ <;>
        simp [InstallRelease, hlist, hmem, hw, hcalls, hA, hL, hload, hr, hf, hu]

theorem InstallRelease_unlisted_witness :
    (InstallRelease (wiredClient memfs.readOnlyFilesystem) "charts/test-b" "b"
          installableWorld).calls
        = [.NewList, .ListRun (some listOptions), .NewInstall, .Load "charts/test-b",
            .InstallRun
              (some { ReleaseName := defaults.EnvPrefix ++ "b",
                      Namespace := (wiredClient memfs.readOnlyFilesystem).Default.Namespace,
                      Wait := true, Timeout := 300, DryRun := false })
              { Metadata := { Name := "test-b", Version := "0.2.0", Description := "d" } }] ∧
      (InstallRelease (wiredClient memfs.readOnlyFilesystem) "charts/test-b" "b"
          installableWorld).result
        = .ok (helm.storedRelease defaults.NameSpace "test-b") ∧
      (InstallRelease (wiredClient memfs.readOnlyFilesystem) "charts/test-b" "b"
          installableWorld).world.cluster = ["test-a", "test-b"] ∧
      (InstallRelease (wiredClient memfs.readOnlyFilesystem) "charts/missing" "b"
          installableWorld).calls
        = [.NewList, .ListRun (some listOptions), .NewInstall, .Load "charts/missing"] ∧
      (InstallRelease mockClient "charts/test-b" "b" installableWorld).calls
        = [.NewList, .ListRun none, .NewInstall, .Load "charts/test-b",
            .InstallRun none
              { Metadata := { Name := "test-b", Version := "0.2.0", Description := "d" } }] ∧
      (InstallRelease mockClient "charts/test-b" "b" installableWorld).result
        = .ok { Name := "", Namespace := "", Manifest := "" } :=
  have h := InstallRelease_unlisted (wiredClient memfs.readOnlyFilesystem) installableWorld
    (helm.actioner defaults.NameSpace) memfs.loader "charts/test-b" "b" ["test-a"] rfl rfl rfl
    (by decide)
  have h₁ := (h.2 { Metadata := { Name := "test-b", Version := "0.2.0", Description := "d" } }
    rfl).1 _ rfl
  have h₂ := ((InstallRelease_unlisted mockClient installableWorld mockActioner memfs.loader
    "charts/test-b" "b" ["test-a"] rfl rfl rfl (by decide)).2
    { Metadata := { Name := "test-b", Version := "0.2.0", Description := "d" } } rfl).2 _ rfl
  ⟨h₁.1, h₁.2.2.1 (helm.storedRelease defaults.NameSpace "test-b") rfl, rfl,
    ((InstallRelease_unlisted (wiredClient memfs.readOnlyFilesystem) installableWorld
      (helm.actioner defaults.NameSpace) memfs.loader "charts/missing" "b" ["test-a"] rfl rfl
      rfl (by decide)).1 "stat charts/missing: no such file or directory" rfl).2.1,
    h₂.1, h₂.2.2.1 { Name := "", Namespace := "", Manifest := "" } rfl⟩

/-- C30 (as the code behaves): with the three API keys set and `actionConfig.Init`
succeeding, `NewRealClient` returns, without error, a client whose `Actioner`,
`ChartLoader` and `Filesystem` are all nil, and `ListReleases`, `InstallRelease`,
`UpgradeRelease` and `UninstallRelease` on that client panic on the nil `Actioner` before
any backend is reached. -/
theorem NewRealClient_leaves_ports_nil :
    (∃ hc : RealClient helm.Store memfs.Disk,
      NewRealClient keyedEnv (fun _ _ => none) = .ok hc ∧
        hc.Actioner.isNone = true ∧ hc.ChartLoader.isNone = true ∧
        hc.Filesystem.isNone = true ∧
        (ListReleases hc deployedWorld).result = .error (.panic nilDereference) ∧
        (ListReleases hc deployedWorld).calls = [] ∧
        (InstallRelease hc "charts/test-b" "b" deployedWorld).result
          = .error (.panic nilDereference) ∧
        (UpgradeRelease hc "test-a" deployedWorld).result = .error (.panic nilDereference) ∧
        (UninstallRelease hc "test-a" deployedWorld).result
          = .error (.panic nilDereference)) :=
  ⟨{ Default := defaultValue, Actioner := none, ChartLoader := none, Filesystem := none },
    rfl, rfl, rfl, rfl, rfl, rfl, rfl, rfl, rfl⟩

end helmutils

namespace apiutils

/-- C22: `ValidateEndpoint(path, apiKey)` is the verdict of the first of `create-env`,
`update-env`, `delete-env`, `health-check`, `list`, in that order, that occurs in `path`:
the comparison of `apiKey` with that entry's configured key for the first three, `true`
for `health-check` and `list` whatever the key; and it is `false` when none of the five
names occurs in `path`. -/
theorem ValidateEndpoint_first_entry (env : utils.Environ) (path apiKey : String) :
    ValidateEndpoint env path apiKey = firstEntryVerdict env path apiKey ∧
      (strings.Contains path "create-env" = false →
        strings.Contains path "update-env" = false →
        strings.Contains path "delete-env" = false →
        strings.Contains path "health-check" = false →
        strings.Contains path "list" = false → ValidateEndpoint env path apiKey = false) := by
  have hsym : ∀ a b : String, (a == b) = (b == a) := by
    intro a b
    by_cases h : a = b
    · subst h; rfl
    · have h₁ : (a == b) = false := by simpa using h
      have h₂ : (b == a) = false := by simpa using fun hba : b = a => h hba.symm
      rw [h₁, h₂]
  constructor
  · unfold ValidateEndpoint firstEntryVerdict endpoints
    simp only [validateLoop, List.find?]
    cases strings.Contains path "create-env" <;>
      cases strings.Contains path "update-env" <;>
      cases strings.Contains path "delete-env" <;>
      cases strings.Contains path "health-check" <;>
      cases strings.Contains path "list" <;>
      simp [hsym apiKey]
  · intro h₁ h₂ h₃ h₄ h₅
    simp [ValidateEndpoint, endpoints, validateLoop, h₁, h₂, h₃, h₄, h₅]

/-- C23 (as the code behaves): the path `/delete-env/create-env`, which the router hands
to the delete handler with chart name `create-env`, contains `delete-env`, yet
`ValidateEndpoint` accepts it with the create key, which is not the delete key: the entry
`create-env` comes first in the table and also occurs in the path.  The same holds with
the update key for `/delete-env/update-env`. -/
theorem ValidateEndpoint_delete_with_create_key :
    strings.Contains "/delete-env/create-env" "delete-env" = true ∧
      helmutils.keyedEnv "HELM_API_CREATE_API_KEY" ≠ helmutils.keyedEnv "HELM_API_DELETE_API_KEY" ∧
      ValidateEndpoint helmutils.keyedEnv "/delete-env/create-env"
        (helmutils.keyedEnv "HELM_API_CREATE_API_KEY") = true ∧
      ValidateEndpoint helmutils.keyedEnv "/delete-env/create-env"
        (helmutils.keyedEnv "HELM_API_DELETE_API_KEY") = false ∧
      strings.Contains "/delete-env/update-env" "delete-env" = true ∧
      helmutils.keyedEnv "HELM_API_UPDATE_API_KEY" ≠ helmutils.keyedEnv "HELM_API_DELETE_API_KEY" ∧
      ValidateEndpoint helmutils.keyedEnv "/delete-env/update-env"
        (helmutils.keyedEnv "HELM_API_UPDATE_API_KEY") = true := by
  decide

/-- C24: for every request, when `ValidateEndpoint(r.URL.Path, X-API-Key value)` is true
the middleware hands the request to the wrapped handler, once, and writes nothing itself;
when it is false the wrapped handler is not called and the middleware replies
`401 Unauthorized`.  So the wrapped handler is called exactly when the validation
succeeds. -/
theorem AuthMiddleware_gate (env : utils.Environ) (next : HttpRequest → σ → σ)
    (r : HttpRequest) (s : σ) :
    (ValidateEndpoint env r.Path r.XAPIKey = true →
        (AuthMiddleware env next r s).forwarded = [r] ∧
          (AuthMiddleware env next r s).state = next r s ∧
          (AuthMiddleware env next r s).refused = none) ∧
      (ValidateEndpoint env r.Path r.XAPIKey = false →
        (AuthMiddleware env next r s).forwarded = [] ∧
          (AuthMiddleware env next r s).state = s ∧
          (AuthMiddleware env next r s).refused = some (401, "Unauthorized\n")) ∧
      (r ∈ (AuthMiddleware env next r s).forwarded ↔
        ValidateEndpoint env r.Path r.XAPIKey = true) := by
  unfold AuthMiddleware
  by_cases h : ValidateEndpoint env r.Path r.XAPIKey = true
  · simp [h]
  · simp [h]

theorem AuthMiddleware_gate_witness :
    ((AuthMiddleware helmutils.keyedEnv (fun _ (count : Nat) => count + 1)
          { Path := "/api/v1/create-env", XAPIKey := "create-key" } 0).forwarded
        = [{ Path := "/api/v1/create-env", XAPIKey := "create-key" }] ∧
      (AuthMiddleware helmutils.keyedEnv (fun _ (count : Nat) => count + 1)
          { Path := "/api/v1/create-env", XAPIKey := "create-key" } 0).state = 0 + 1 ∧
      (AuthMiddleware helmutils.keyedEnv (fun _ (count : Nat) => count + 1)
          { Path := "/api/v1/create-env", XAPIKey := "create-key" } 0).refused = none) ∧
      ((AuthMiddleware helmutils.keyedEnv (fun _ (count : Nat) => count + 1)
          { Path := "/api/v1/create-env", XAPIKey := "wrong-key" } 0).forwarded = [] ∧
      (AuthMiddleware helmutils.keyedEnv (fun _ (count : Nat) => count + 1)
          { Path := "/api/v1/create-env", XAPIKey := "wrong-key" } 0).state = 0 ∧
      (AuthMiddleware helmutils.keyedEnv (fun _ (count : Nat) => count + 1)
          { Path := "/api/v1/create-env", XAPIKey := "wrong-key" } 0).refused
        = some (401, "Unauthorized\n")) :=
  ⟨(AuthMiddleware_gate helmutils.keyedEnv (fun _ (count : Nat) => count + 1)
      { Path := "/api/v1/create-env", XAPIKey := "create-key" } 0).1 (by decide),
    (AuthMiddleware_gate helmutils.keyedEnv (fun _ (count : Nat) => count + 1)
      { Path := "/api/v1/create-env", XAPIKey := "wrong-key" } 0).2.1 (by decide)⟩

end apiutils

namespace utils

theorem missing_key_messages :
    "master " ++ strings.ToLower (strings.TrimPrefix "HELM_API_CREATE_API_KEY" "HELM_API_") ++
          " missing" = "master create_api_key missing" ∧
      "master " ++ strings.ToLower (strings.TrimPrefix "HELM_API_DELETE_API_KEY" "HELM_API_") ++
          " missing" = "master delete_api_key missing" ∧
      "master " ++ strings.ToLower (strings.TrimPrefix "HELM_API_UPDATE_API_KEY" "HELM_API_") ++
          " missing" = "master update_api_key missing" := by
  decide

theorem ValidateAPIKeys_none (env : Environ) (h : ValidateAPIKeys env = none) :
    env "HELM_API_CREATE_API_KEY" ≠ "" ∧ env "HELM_API_DELETE_API_KEY" ≠ "" ∧
      env "HELM_API_UPDATE_API_KEY" ≠ "" := by
  unfold ValidateAPIKeys required at h
  simp only [validateKeys] at h
  by_cases h₁ : env "HELM_API_CREATE_API_KEY" = "" <;>
    by_cases h₂ : env "HELM_API_DELETE_API_KEY" = "" <;>
    by_cases h₃ : env "HELM_API_UPDATE_API_KEY" = "" <;> simp [h₁, h₂, h₃] at h ⊢

/-- C25: `ValidateAPIKeys` returns an error exactly when one of
`HELM_API_CREATE_API_KEY`, `HELM_API_DELETE_API_KEY`, `HELM_API_UPDATE_API_KEY` is unset or
empty; the error names the first of them, in that order, that is missing; and when it
returns an error, `NewRealClient` returns that error and no client. -/
theorem ValidateAPIKeys_missing (env : Environ) :
    ((ValidateAPIKeys env).isSome = true ↔
        (env "HELM_API_CREATE_API_KEY" = "" ∨ env "HELM_API_DELETE_API_KEY" = "" ∨
          env "HELM_API_UPDATE_API_KEY" = "")) ∧
      (env "HELM_API_CREATE_API_KEY" = "" →
        ValidateAPIKeys env = some "master create_api_key missing") ∧
      (env "HELM_API_CREATE_API_KEY" ≠ "" → env "HELM_API_DELETE_API_KEY" = "" →
        ValidateAPIKeys env = some "master delete_api_key missing") ∧
      (env "HELM_API_CREATE_API_KEY" ≠ "" → env "HELM_API_DELETE_API_KEY" ≠ "" →
        env "HELM_API_UPDATE_API_KEY" = "" →
        ValidateAPIKeys env = some "master update_api_key missing") ∧
      ∀ (κ δ : Type) (init : String → String → Option String) (err : String),
        ValidateAPIKeys env = some err →
          (helmutils.NewRealClient env init : Except String (helmutils.RealClient κ δ))
            = .error err := by
  obtain ⟨hc, hd, hu⟩ := missing_key_messages
  refine ⟨?_, ?_, ?_, ?_, ?_⟩
  · unfold ValidateAPIKeys required
    simp only [validateKeys]
    by_cases h₁ : env "HELM_API_CREATE_API_KEY" = "" <;>
      by_cases h₂ : env "HELM_API_DELETE_API_KEY" = "" <;>
      by_cases h₃ : env "HELM_API_UPDATE_API_KEY" = "" <;> simp [h₁, h₂, h₃]
  · intro h₁
    simp only [ValidateAPIKeys, required, validateKeys, h₁, if_true, hc]
  · intro h₁ h₂
    simp only [ValidateAPIKeys, required, validateKeys, h₁, h₂, if_true, if_false, hd]
  · intro h₁ h₂ h₃
    simp only [ValidateAPIKeys, required, validateKeys, h₁, h₂, h₃, if_true, if_false, hu]
  · intro κ δ init err h
    simp only [helmutils.NewRealClient, h]

theorem ValidateAPIKeys_missing_witness :
    ValidateAPIKeys helmutils.partlyKeyedEnv = some "master delete_api_key missing" ∧
      (helmutils.NewRealClient helmutils.partlyKeyedEnv (fun _ _ => none) :
          Except String (helmutils.RealClient helm.Store memfs.Disk))
        = .error "master delete_api_key missing" ∧
      (ValidateAPIKeys helmutils.keyedEnv).isSome = false :=
  ⟨(ValidateAPIKeys_missing helmutils.partlyKeyedEnv).2.2.1 (by decide) (by decide),
    (ValidateAPIKeys_missing helmutils.partlyKeyedEnv).2.2.2.2 helm.Store memfs.Disk
      (fun _ _ => none) "master delete_api_key missing" (by decide),
    by decide⟩

/-- C26 (as the code behaves): `ab` is a contiguous substring of `abc` (at the start) and
`b` is one (in the middle), yet `utils.Contains("abc", "ab")` and
`utils.Contains("abc", "b")` are false; only the occurrence at the end, `bc`, is found. -/
theorem Contains_misses_substring :
    strings.Contains "abc" "ab" = true ∧ Contains "abc".toList "ab".toList = false ∧
      strings.Contains "abc" "b" = true ∧ Contains "abc".toList "b".toList = false ∧
      Contains "abc".toList "bc".toList = true := by
  decide

theorem Contains_nil {α : Type} [DecidableEq α] (substr : List α) :
    Contains [] substr = true ↔ substr = [] := by
  unfold Contains
  cases substr with
  | nil => simp
  | cons c t => simp

theorem Contains_cons {α : Type} [DecidableEq α] (c : α) (t substr : List α) :
    Contains (c :: t) substr =
      (decide ((c :: t).length ≥ substr.length) &&
        (decide (c :: t = substr) ||
          (decide ((c :: t).length > substr.length) && Contains t substr))) := by
  rw [Contains]

/-- C29: the recursion of `utils.Contains` is on `str[1:]`, a strictly shorter string, so
it ends (the function is total), and `Contains(str, substr)` is true exactly when `substr`
is a suffix of `str`; in particular `Contains(str, "")` and `Contains(str, str)` are true
for every `str`. -/
theorem Contains_iff_suffix {α : Type} [DecidableEq α] (str substr : List α) :
    (Contains str substr = true ↔ substr <:+ str) ∧ Contains str [] = true ∧
      Contains str str = true := by
  have key : ∀ (s sub : List α), Contains s sub = true ↔ sub <:+ s := by
    intro s
    induction s with
    | nil =>
      intro sub
      rw [Contains_nil, List.suffix_nil]
    | cons c t ih =>
      intro sub
      rw [Contains_cons, List.suffix_cons_iff]
      simp only [Bool.and_eq_true, Bool.or_eq_true, decide_eq_true_eq, ih]
      constructor
      · rintro ⟨_, h | ⟨_, h⟩⟩
        · exact Or.inl h.symm
        · exact Or.inr h
      · rintro (h | h)
        · subst h
          exact ⟨le_refl _, Or.inl rfl⟩
        · have hlen := h.length_le
          simp only [List.length_cons]
          exact ⟨by omega, Or.inr ⟨by omega, h⟩⟩
  exact ⟨key str substr, (key str []).2 List.nil_suffix,
    (key str str).2 List.suffix_rfl⟩

end utils

namespace apiutils

/-- C28: if `ValidateAPIKeys` succeeds, then for every path in which `create-env`,
`update-env` or `delete-env` occurs, `ValidateEndpoint(path, "")` is false, and whatever
key is accepted for such a path is one of the three configured keys: the no-auth verdict
of `health-check` and `list` is never the one that applies. -/
theorem ValidateEndpoint_no_key (env : utils.Environ) (path : String)
    (hkeys : utils.ValidateAPIKeys env = none)
    (hpath : strings.Contains path "create-env" = true ∨
      strings.Contains path "update-env" = true ∨
      strings.Contains path "delete-env" = true) :
    ValidateEndpoint env path "" = false ∧
      ∀ apiKey, ValidateEndpoint env path apiKey = true →
        apiKey = env "HELM_API_CREATE_API_KEY" ∨ apiKey = env "HELM_API_UPDATE_API_KEY" ∨
          apiKey = env "HELM_API_DELETE_API_KEY" := by
  obtain ⟨hc, hd, hu⟩ := utils.ValidateAPIKeys_none env hkeys
  unfold ValidateEndpoint endpoints
  simp only [validateLoop]
  cases h₁ : strings.Contains path "create-env" <;>
    cases h₂ : strings.Contains path "update-env" <;>
    cases h₃ : strings.Contains path "delete-env" <;>
    first
    | (exfalso
       simp [h₁, h₂, h₃] at hpath
       done)
    | (refine ⟨by simp [hc, hd, hu], ?_⟩
       intro apiKey h
       simp at h
       subst h
       simp)

end apiutils

namespace apiutils

theorem ValidateEndpoint_no_key_witness :
    ValidateEndpoint helmutils.keyedEnv "/delete-env/demo" "" = false ∧
      ∀ apiKey, ValidateEndpoint helmutils.keyedEnv "/delete-env/demo" apiKey = true →
        apiKey = helmutils.keyedEnv "HELM_API_CREATE_API_KEY" ∨
          apiKey = helmutils.keyedEnv "HELM_API_UPDATE_API_KEY" ∨
          apiKey = helmutils.keyedEnv "HELM_API_DELETE_API_KEY" :=
  ValidateEndpoint_no_key helmutils.keyedEnv "/delete-env/demo" (by decide)
    (Or.inr (Or.inr (by decide)))

end apiutils

namespace filepath

theorem joinElems_eq_nil (l : List (List Char)) (h : joinElems l = []) :
    l = [] ∨ l = [[]] := by
  cases l with
  | nil => exact Or.inl rfl
  | cons e es =>
    cases es with
    | nil =>
      right
      simpa [joinElems] using h
    | cons e₁ es₁ => simp [joinElems] at h

end filepath

namespace filepath

end filepath

namespace helmutils

end helmutils
